import Mathlib

/-!
# Verification of the MetaDataScraper reorganization / metadata pipeline

A shallow embedding of the core algorithms of the repository:

* `batch_scraper.py` — filename parsing (`_parse_episode_info`), search-query
  cleaning (`_clean_show_name_for_search`), subtitle-language detection,
  the file reorganizers (`_organize_show_files`, `_organize_scattered_files`,
  `_rename_files_inplace`) and their move ledgers;
* `src/core/normalize.py` — `DataNormalizer.normalize_tmdb_movie/tv`,
  `enrich_with_credits`, `enrich_with_keywords`, `enrich_with_omdb`;
* `src/core/llm_mapper.py` — `DirectMapper.map_to_tvshow_nfo`;
* `src/app/graph.py` — `MediaMetadataGraph` nodes (`search_node`,
  `select_candidate_node`, `fetch_node`, `normalize_node`, `translate_node`,
  `omdb_enrich_node`, `llm_map_to_nfo_node`, `validate_nfo_node`) and the
  stage wiring of `create_graph`.

Python strings are modelled as `List Char`/`String`; regular expressions are
modelled by hand-written deterministic scanners that mirror CPython's
leftmost-match, greedy-with-backtracking semantics for exactly the patterns
appearing in the source.  `\d`, `\s` and case folding are modelled over the
ASCII fragment (plus the CJK word-character range where a `\b` boundary check
needs it).  Fallible operations (`int()`, raising stages) are modelled with
`Option`/`Except`.  Filesystem I/O success/failure is an explicit oracle.
-/

set_option maxRecDepth 10000

namespace MetaDataScraper

/-! ## Python character / string helpers (ASCII fragment) -/

/-- ASCII decimal digit, the fragment of Python's `\d` used here. -/
def isDigitC (c : Char) : Bool := '0' ≤ c && c ≤ '9'

/-- Numeric value of an ASCII digit. -/
def digitVal (c : Char) : Nat := c.toNat - '0'.toNat

/-- Python's `str.strip()` / `\s` whitespace set (ASCII fragment). -/
def isPySpace (c : Char) : Bool :=
  c = ' ' || c = '\t' || c = '\n' || c = '\r' || c = '\x0b' || c = '\x0c'

/-- Word character for `\b` boundaries: ASCII alphanumerics, underscore and
the CJK unified-ideograph range (Python's `\w` is larger, but this is the
fragment exercised by the repository's inputs). -/
def isWordC (c : Char) : Bool :=
  c.isAlphanum || c = '_' || (0x4E00 ≤ c.toNat && c.toNat ≤ 0x9FFF)

/-- Python `str.strip()` on a character list. -/
def pyStrip (l : List Char) : List Char :=
  ((l.dropWhile isPySpace).reverse.dropWhile isPySpace).reverse

/-- Python `str.strip()` on a `String`. -/
def pyStripS (s : String) : String := ⟨pyStrip s.data⟩

/-- Python `str.split(sep)` for a one-character separator. -/
def pySplit (sep : Char) : List Char → List (List Char)
  | [] => [[]]
  | c :: rest =>
    if c = sep then [] :: pySplit sep rest
    else
      match pySplit sep rest with
      | h :: t => (c :: h) :: t
      | [] => [[c]]

/-- Substring containment, Python's `needle in hay`. -/
def containsSub (hay : List Char) (needle : String) : Bool :=
  hay.tails.any (fun t => needle.data.isPrefixOf t)

/-- All-digit string to number (helper for `pyInt?`). -/
def digitsToNat? (ds : List Char) : Option Nat :=
  if ds ≠ [] && ds.all isDigitC then
    some (ds.foldl (fun a c => 10 * a + digitVal c) 0)
  else none

/-- Python `int(s)`: optional surrounding whitespace, optional sign, a
non-empty digit run; anything else raises `ValueError` (`none` here). -/
def pyInt? (s : List Char) : Option Int :=
  let t := pyStrip s
  match t with
  | '+' :: ds => (digitsToNat? ds).map Int.ofNat
  | '-' :: ds => (digitsToNat? ds).map (fun n => -(Int.ofNat n))
  | ds => (digitsToNat? ds).map Int.ofNat

/-! ## `_parse_episode_info` (batch_scraper.py 276-323)

Each regex of the source is a deterministic matcher `List Char → Option _`
that attempts a match anchored at the head of the list; `reSearch` slides the
matcher over every position, leftmost match first, exactly like `re.search`.
-/

/-- Greedy `(\d{1,2})`: two digits if available, else one; returns the value
and the remainder. -/
def takeDigits12 : List Char → Option (Nat × List Char)
  | d1 :: d2 :: rest =>
    if isDigitC d1 && isDigitC d2 then
      some (10 * digitVal d1 + digitVal d2, rest)
    else if isDigitC d1 then some (digitVal d1, d2 :: rest)
    else none
  | [d1] => if isDigitC d1 then some (digitVal d1, []) else none
  | [] => none

/-- `(\d{1,2})E` with backtracking (case-insensitive `E`): used after the
leading `S` of `S(\d{1,2})E(\d{1,2})`.  Tries two digits before the `E`,
falls back to one. -/
def seasonThenE : List Char → Option (Nat × List Char)
  | d1 :: d2 :: e :: rest =>
    if isDigitC d1 && isDigitC d2 && (e = 'E' || e = 'e') then
      some (10 * digitVal d1 + digitVal d2, rest)
    else if isDigitC d1 && (d2 = 'E' || d2 = 'e') then
      some (digitVal d1, e :: rest)
    else none
  | [d1, d2] =>
    if isDigitC d1 && (d2 = 'E' || d2 = 'e') then some (digitVal d1, [])
    else none
  | _ => none

/-- `(\d{1,2})x` with backtracking (case-insensitive `x`): the first half of
`(\d{1,2})x(\d{1,2})`. -/
def digitsThenX : List Char → Option (Nat × List Char)
  | d1 :: d2 :: x :: rest =>
    if isDigitC d1 && isDigitC d2 && (x = 'x' || x = 'X') then
      some (10 * digitVal d1 + digitVal d2, rest)
    else if isDigitC d1 && (d2 = 'x' || d2 = 'X') then
      some (digitVal d1, x :: rest)
    else none
  | [d1, d2] =>
    if isDigitC d1 && (d2 = 'x' || d2 = 'X') then some (digitVal d1, [])
    else none
  | _ => none

/-- Pattern `S(\d{1,2})E(\d{1,2})` anchored at the head. -/
def tryS_E : List Char → Option (Nat × Nat)
  | c :: rest =>
    if c = 'S' || c = 's' then
      match seasonThenE rest with
      | some (s, rest2) => (takeDigits12 rest2).map (fun p => (s, p.1))
      | none => none
    else none
  | [] => none

/-- Pattern `(\d{1,2})x(\d{1,2})` anchored at the head. -/
def tryNxN (l : List Char) : Option (Nat × Nat) :=
  match digitsThenX l with
  | some (s, rest) => (takeDigits12 rest).map (fun p => (s, p.1))
  | none => none

/-- Case-insensitive literal match; returns the remainder on success. -/
def matchCI : List Char → List Char → Option (List Char)
  | [], l => some l
  | _ :: _, [] => none
  | p :: ps, c :: cs => if c.toLower = p.toLower then matchCI ps cs else none

/-- `Episode\s*(\d{1,2})` anchored at the head (case-insensitive). -/
def tryEpisodeCore (l : List Char) : Option Nat :=
  match matchCI "episode".data l with
  | some rest => (takeDigits12 (rest.dropWhile isPySpace)).map Prod.fst
  | none => none

/-- Latest position (greedy `.*`, which cannot cross a newline) at which
`Episode\s*(\d{1,2})` matches. -/
def lastEpisodeIn : List Char → Option Nat
  | [] => none
  | c :: rest =>
    (if c = '\n' then none else lastEpisodeIn rest) <|> tryEpisodeCore (c :: rest)

/-- Pattern `Season\s*(\d{1,2}).*Episode\s*(\d{1,2})` anchored at the head. -/
def trySeasonEpisode (l : List Char) : Option (Nat × Nat) :=
  match matchCI "season".data l with
  | some r1 =>
    match takeDigits12 (r1.dropWhile isPySpace) with
    | some (s, r2) => (lastEpisodeIn r2).map (fun e => (s, e))
    | none => none
  | none => none

/-- Pattern `Episode\s*(\d{1,2})` as a full parse: season defaults to 1. -/
def tryEpisodeOnly (l : List Char) : Option (Nat × Nat) :=
  (tryEpisodeCore l).map (fun e => (1, e))

/-- `(\d{1,2})` followed by a literal delimiter, with backtracking: the tail
of the anchored variants `\.S(\d{1,2})E(\d{1,2})\.` etc. -/
def epDigitsThen (stop : Char) : List Char → Option Nat
  | d1 :: d2 :: c :: _ =>
    if isDigitC d1 && isDigitC d2 && c = stop then
      some (10 * digitVal d1 + digitVal d2)
    else if isDigitC d1 && d2 = stop then some (digitVal d1)
    else none
  | [d1, d2] =>
    if isDigitC d1 && d2 = stop then some (digitVal d1) else none
  | _ => none

/-- Anchored variant `\dS(\d{1,2})E(\d{1,2})\d` with delimiter `d`
(`.` or `-` in the source). -/
def tryDelimSE (d : Char) : List Char → Option (Nat × Nat)
  | c :: s :: rest =>
    if c = d && (s = 'S' || s = 's') then
      match seasonThenE rest with
      | some (sv, r3) => (epDigitsThen d r3).map (fun e => (sv, e))
      | none => none
    else none
  | _ => none

/-- Anchored variant `\d(\d{1,2})x(\d{1,2})\d` with delimiter `d`. -/
def tryDelimNxN (d : Char) : List Char → Option (Nat × Nat)
  | c :: rest =>
    if c = d then
      match digitsThenX rest with
      | some (sv, r3) => (epDigitsThen d r3).map (fun e => (sv, e))
      | none => none
    else none
  | [] => none

/-- `re.search`: try the anchored matcher at each position, left to right. -/
def reSearch (f : List Char → Option α) : List Char → Option α
  | [] => f []
  | l@(_ :: t) => f l <|> reSearch f t

/-- `BatchMediaScraper._parse_episode_info`: the four primary patterns in
order, then the four delimiter-anchored fallbacks. -/
def parse_episode_info (filename : String) : Option (Nat × Nat) :=
  let l := filename.data
  reSearch tryS_E l <|> reSearch tryNxN l <|>
  reSearch trySeasonEpisode l <|> reSearch tryEpisodeOnly l <|>
  reSearch (tryDelimSE '.') l <|> reSearch (tryDelimSE '-') l <|>
  reSearch (tryDelimNxN '.') l <|> reSearch (tryDelimNxN '-') l

/-! ### Properties of the scanner -/

theorem reSearch_some_iff (f : List Char → Option α) (l : List Char) (a : α) :
    reSearch f l = some a ↔
      ∃ i, f (l.drop i) = some a ∧ ∀ j, j < i → f (l.drop j) = none := by
  induction l with
  | nil =>
    simp only [reSearch, List.drop_nil]
    constructor
    · intro h
      exact ⟨0, h, fun j hj => absurd hj (Nat.not_lt_zero j)⟩
    · rintro ⟨i, hi, -⟩
      exact hi
  | cons c t ih =>
    show (f (c :: t) <|> reSearch f t) = some a ↔ _
    cases hf : f (c :: t) with
    | some b =>
      simp only [Option.some_orElse]
      constructor
      · intro hba
        cases hba
        exact ⟨0, by simpa using hf, fun j hj => absurd hj (Nat.not_lt_zero j)⟩
      · rintro ⟨i, hi, hj⟩
        cases i with
        | zero => simpa [hf] using hi
        | succ k =>
          have := hj 0 (Nat.succ_pos k)
          simp [hf] at this
    | none =>
      simp only [Option.none_orElse]
      rw [ih]
      constructor
      · rintro ⟨i, hi, hj⟩
        refine ⟨i + 1, by simpa using hi, fun j hlt => ?_⟩
        cases j with
        | zero => simpa using hf
        | succ k => simpa using hj k (Nat.lt_of_succ_lt_succ hlt)
      · rintro ⟨i, hi, hj⟩
        cases i with
        | zero => simp [hf] at hi
        | succ k =>
          refine ⟨k, by simpa using hi, fun j hlt => ?_⟩
          simpa using hj (j + 1) (Nat.succ_lt_succ hlt)

theorem reSearch_isSome_of_suffix (f : List Char → Option α) {t l : List Char}
    {a : α} (h : f t = some a) (hs : t <:+ l) : (reSearch f l).isSome := by
  induction l with
  | nil =>
    have ht : t = [] := List.suffix_nil.mp hs
    subst ht
    simp [reSearch, h]
  | cons c l ih =>
    rcases List.suffix_cons_iff.mp hs with h1 | h2
    · subst h1
      show (f (c :: l) <|> reSearch f l).isSome
      simp [h]
    · show (f (c :: l) <|> reSearch f l).isSome
      cases hf : f (c :: l) with
      | some b => simp
      | none => simpa using ih h2

theorem takeDigits12_isSome_of_epDigitsThen {d : Char} {r : List Char} {e : Nat}
    (h : epDigitsThen d r = some e) : (takeDigits12 r).isSome := by
  match r with
  | d1 :: d2 :: c :: rest =>
    simp only [epDigitsThen, takeDigits12] at *
    split at h <;> split <;> simp_all
  | [d1, d2] =>
    simp only [epDigitsThen, takeDigits12] at *
    split at h <;> split <;> simp_all
  | [d1] => simp [epDigitsThen] at h
  | [] => simp [epDigitsThen] at h

theorem tryS_E_of_tryDelimSE {d : Char} {l : List Char} {p : Nat × Nat}
    (h : tryDelimSE d l = some p) : ∃ t, t <:+ l ∧ (tryS_E t).isSome := by
  match l with
  | c :: s :: rest =>
    refine ⟨s :: rest, ⟨[c], rfl⟩, ?_⟩
    simp only [tryDelimSE] at h
    split at h
    · rename_i hcs
      simp only [Bool.and_eq_true, Bool.or_eq_true, decide_eq_true_eq] at hcs
      obtain ⟨-, hS⟩ := hcs
      cases hse : seasonThenE rest with
      | none => rw [hse] at h; simp at h
      | some sv =>
        rw [hse] at h
        obtain ⟨svn, r3⟩ := sv
        dsimp only at h
        cases hep : epDigitsThen d r3 with
        | none => rw [hep] at h; simp at h
        | some e =>
          have htd := takeDigits12_isSome_of_epDigitsThen hep
          rcases Option.isSome_iff_exists.mp htd with ⟨v, hv⟩
          rcases hS with rfl | rfl <;> simp [tryS_E, hse, hv]
    · exact absurd h (by simp)
  | [c] => simp [tryDelimSE] at h
  | [] => simp [tryDelimSE] at h

theorem tryNxN_of_tryDelimNxN {d : Char} {l : List Char} {p : Nat × Nat}
    (h : tryDelimNxN d l = some p) : ∃ t, t <:+ l ∧ (tryNxN t).isSome := by
  match l with
  | c :: rest =>
    refine ⟨rest, ⟨[c], rfl⟩, ?_⟩
    simp only [tryDelimNxN] at h
    split at h
    · cases hdx : digitsThenX rest with
      | none => simp [hdx] at h
      | some sv =>
        rw [hdx] at h
        obtain ⟨svn, r3⟩ := sv
        dsimp only at h
        cases hep : epDigitsThen d r3 with
        | none => simp [hep] at h
        | some e =>
          have htd := takeDigits12_isSome_of_epDigitsThen hep
          simp only [tryNxN, hdx]
          rcases Option.isSome_iff_exists.mp htd with ⟨v, hv⟩
          simp [hv]
    · exact absurd h (by simp)
  | [] => simp [tryDelimNxN] at h

/-- A delimiter-anchored fallback can only match where the corresponding
primary pattern already matches somewhere in the string. -/
theorem reSearch_delimSE_none {l : List Char} {d : Char}
    (h : reSearch tryS_E l = none) : reSearch (tryDelimSE d) l = none := by
  cases hr : reSearch (tryDelimSE d) l with
  | none => rfl
  | some p =>
    exfalso
    rcases (reSearch_some_iff _ l p).mp hr with ⟨i, hi, -⟩
    rcases tryS_E_of_tryDelimSE hi with ⟨t, hts, hsome⟩
    have hsuffix : t <:+ l := hts.trans (List.drop_suffix i l)
    rcases Option.isSome_iff_exists.mp hsome with ⟨a, ha⟩
    have := reSearch_isSome_of_suffix tryS_E ha hsuffix
    simp [h] at this

theorem reSearch_delimNxN_none {l : List Char} {d : Char}
    (h : reSearch tryNxN l = none) : reSearch (tryDelimNxN d) l = none := by
  cases hr : reSearch (tryDelimNxN d) l with
  | none => rfl
  | some p =>
    exfalso
    rcases (reSearch_some_iff _ l p).mp hr with ⟨i, hi, -⟩
    rcases tryNxN_of_tryDelimNxN hi with ⟨t, hts, hsome⟩
    have hsuffix : t <:+ l := hts.trans (List.drop_suffix i l)
    rcases Option.isSome_iff_exists.mp hsome with ⟨a, ha⟩
    have := reSearch_isSome_of_suffix tryNxN ha hsuffix
    simp [h] at this

/-- C2 (claim theorem): the `S{1-2 digit}E{1-2 digit}` pattern has top
priority — whenever the filename contains such a token, `parse_episode_info`
returns exactly the pair extracted at the leftmost token (second conjunct
characterizes that leftmost semantics); `"Show.S02E05.mkv"` parses to
`(2, 5)`; and a filename on which none of the four ordered primary patterns
matches parses to `none` (the delimiter-anchored fallbacks can never fire in
that case), rather than erroring. -/
theorem C2_parse_episode_info_spec :
    (∀ (name : String) (s e : Nat),
        reSearch tryS_E name.data = some (s, e) →
        parse_episode_info name = some (s, e))
    ∧ (∀ (name : String) (s e : Nat),
        reSearch tryS_E name.data = some (s, e) ↔
          ∃ i, tryS_E (name.data.drop i) = some (s, e) ∧
            ∀ j, j < i → tryS_E (name.data.drop j) = none)
    ∧ parse_episode_info "Show.S02E05.mkv" = some (2, 5)
    ∧ (∀ name : String,
        reSearch tryS_E name.data = none →
        reSearch tryNxN name.data = none →
        reSearch trySeasonEpisode name.data = none →
        reSearch tryEpisodeOnly name.data = none →
        parse_episode_info name = none)
    ∧ parse_episode_info "randomfile.mkv" = none := by
  refine ⟨?_, ?_, by decide, ?_, by decide⟩
  · intro name s e h
    unfold parse_episode_info
    simp [h]
  · intro name s e
    exact reSearch_some_iff tryS_E name.data (s, e)
  · intro name h1 h2 h3 h4
    unfold parse_episode_info
    simp only [h1, h2, h3, h4, Option.none_orElse,
      reSearch_delimSE_none h1, reSearch_delimNxN_none h2]

/-- Witness for C2 at concrete inputs. -/
theorem C2_parse_episode_info_spec_witness :
    parse_episode_info "Show.S02E05.mkv" = some (2, 5)
    ∧ parse_episode_info "randomfile.mkv" = none :=
  ⟨C2_parse_episode_info_spec.1 "Show.S02E05.mkv" 2 5 (by decide),
   C2_parse_episode_info_spec.2.2.2.1 "randomfile.mkv"
     (by decide) (by decide) (by decide) (by decide)⟩

/-! ## `_clean_show_name_for_search` (batch_scraper.py 408-429)

Each `re.sub(pattern, '', ...)` call is modelled by a scanner that walks the
original string, removing every non-overlapping leftmost match.  Matching is
performed against the original string (as `re.sub` does); the character
preceding the current position is threaded through for the `\b` boundary of
the standalone-year pattern.  After a removal the carried previous-character
is reset: no pattern of this set can match immediately after one of its own
matches at a boundary (the year pattern requires the following character to
be a non-word character, which can never start a digit run). -/

/-- One `re.sub`-step matcher: given the previous original character and the
rest of the input, return the remainder after a match anchored here. -/
abbrev SubPat := Option Char → List Char → Option (List Char)

def reSubAux (f : SubPat) : Nat → Option Char → List Char → List Char
  | 0, _, l => l
  | _ + 1, _, [] => []
  | fuel + 1, prev, c :: rest =>
    match f prev (c :: rest) with
    | some r => reSubAux f fuel none r
    | none => c :: reSubAux f fuel (some c) rest

/-- `re.sub(pattern, '', s)` for a pattern that always consumes at least one
character (every pattern below does). -/
def reSub (f : SubPat) (l : List Char) : List Char :=
  reSubAux f l.length none l

/-- `\s*\(\d{4}\)\s*` anchored at the head. -/
def patParenYear : SubPat := fun _ l =>
  match l.dropWhile isPySpace with
  | '(' :: d1 :: d2 :: d3 :: d4 :: ')' :: rest =>
    if isDigitC d1 && isDigitC d2 && isDigitC d3 && isDigitC d4 then
      some (rest.dropWhile isPySpace)
    else none
  | _ => none

/-- Non-greedy `.*?\]`: everything up to the first `]` (a `.` cannot cross a
newline). -/
def findCloseBracket : List Char → Option (List Char)
  | [] => none
  | ']' :: rest => some rest
  | '\n' :: _ => none
  | _ :: rest => findCloseBracket rest

/-- `\[.*?\]` anchored at the head. -/
def patBracket : SubPat := fun _ l =>
  match l with
  | '[' :: rest => findCloseBracket rest
  | _ => none

/-- `\b\d{4}\b` anchored at the head; `prev` is the preceding original
character (boundary holds at the string start). -/
def patYear : SubPat := fun prev l =>
  match l with
  | d1 :: d2 :: d3 :: d4 :: rest =>
    if isDigitC d1 && isDigitC d2 && isDigitC d3 && isDigitC d4
        && (match prev with | some p => !isWordC p | none => true)
        && (match rest with | r :: _ => !isWordC r | [] => true) then
      some rest
    else none
  | _ => none

def isPChar (c : Char) : Bool := c = 'p' || c = 'P'

/-- `\d{3,4}p` (case-insensitive) anchored at the head: four digits then `p`,
falling back to three digits then `p`. -/
def patRes : SubPat := fun _ l =>
  match l with
  | d1 :: d2 :: d3 :: c4 :: rest =>
    if isDigitC d1 && isDigitC d2 && isDigitC d3 then
      if isDigitC c4 then
        match rest with
        | c5 :: rest2 => if isPChar c5 then some rest2 else none
        | [] => none
      else if isPChar c4 then some rest
      else none
    else none
  | _ => none

/-- `BD|BDRip|WEB-DL|WEBRip|HDTV|BluRay` (case-insensitive): alternatives are
tried in the written order, so `BD` wins over `BDRip` at the same position. -/
def patSource : SubPat := fun _ l =>
  matchCI "BD".data l <|> matchCI "BDRip".data l <|> matchCI "WEB-DL".data l <|>
  matchCI "WEBRip".data l <|> matchCI "HDTV".data l <|> matchCI "BluRay".data l

/-- `x264|x265|h264|h265` (case-insensitive). -/
def patCodec : SubPat := fun _ l =>
  matchCI "x264".data l <|> matchCI "x265".data l <|>
  matchCI "h264".data l <|> matchCI "h265".data l

def isSepC (c : Char) : Bool := c = '.' || c = '_' || c = '-'

/-- Worker for `collapseSeps`: `afterSep` records whether the previous
character belonged to a separator run already replaced by a space. -/
def collapseGo : Bool → List Char → List Char
  | _, [] => []
  | afterSep, c :: rest =>
    if isSepC c then
      if afterSep then collapseGo true rest
      else ' ' :: collapseGo true rest
    else c :: collapseGo false rest

/-- `re.sub(r'[._-]+', ' ', ...)`: each maximal separator run becomes one
space. -/
def collapseSeps (l : List Char) : List Char := collapseGo false l

/-- `BatchMediaScraper._clean_show_name_for_search`. -/
def clean_show_name_for_search (s : String) : String :=
  let l1 := reSub patParenYear s.data
  let l2 := reSub patBracket l1
  let l3 := reSub patYear l2
  let l4 := reSub patRes l3
  let l5 := reSub patSource l4
  let l6 := reSub patCodec l5
  ⟨pyStrip (collapseSeps l6)⟩

/-! ### Properties of the cleaner -/

theorem collapseGo_sep_free (l : List Char) :
    ∀ b, ∀ c ∈ collapseGo b l, isSepC c = false := by
  induction l with
  | nil => intro b c hc; simp [collapseGo] at hc
  | cons d rest ih =>
    intro b c hc
    rw [collapseGo] at hc
    cases hd : isSepC d with
    | true =>
      rw [hd] at hc
      simp only [if_true] at hc
      cases b with
      | true => exact ih true c hc
      | false =>
        simp only [Bool.false_eq_true, if_false] at hc
        rcases List.mem_cons.mp hc with rfl | hc'
        · decide
        · exact ih true c hc'
    | false =>
      rw [hd] at hc
      simp only [Bool.false_eq_true, if_false] at hc
      rcases List.mem_cons.mp hc with rfl | hc'
      · exact hd
      · exact ih false c hc'

theorem collapseSeps_sep_free (l : List Char) :
    ∀ c ∈ collapseSeps l, isSepC c = false := by
  intro c hc
  exact collapseGo_sep_free l false c hc

theorem head?_dropWhile_false (p : Char → Bool) (l : List Char) :
    ∀ h, (l.dropWhile p).head? = some h → p h = false := by
  induction l with
  | nil => simp
  | cons c t ih =>
    intro h hh
    rw [List.dropWhile_cons] at hh
    split at hh
    · exact ih h hh
    · rename_i hc
      simp only [List.head?_cons, Option.some.injEq] at hh
      subst hh
      simpa using hc

theorem mem_pyStrip {c : Char} {l : List Char} (h : c ∈ pyStrip l) : c ∈ l := by
  unfold pyStrip at h
  rw [List.mem_reverse] at h
  have h1 := (List.dropWhile_suffix isPySpace).sublist.subset h
  rw [List.mem_reverse] at h1
  exact (List.dropWhile_suffix isPySpace).sublist.subset h1

theorem pyStrip_isPrefix (l : List Char) :
    pyStrip l <+: l.dropWhile isPySpace := by
  unfold pyStrip
  rw [← List.reverse_suffix]
  simpa using List.dropWhile_suffix isPySpace

theorem pyStrip_head (l : List Char) :
    ∀ h, (pyStrip l).head? = some h → isPySpace h = false := by
  intro h hh
  rcases pyStrip_isPrefix l with ⟨r, hr⟩
  have hm : (l.dropWhile isPySpace).head? = some h := by
    rw [← hr, List.head?_append, hh]
    rfl
  exact head?_dropWhile_false isPySpace l h hm

theorem pyStrip_getLast (l : List Char) :
    ∀ h, (pyStrip l).getLast? = some h → isPySpace h = false := by
  intro h hh
  unfold pyStrip at hh
  rw [List.getLast?_reverse] at hh
  exact head?_dropWhile_false isPySpace _ h hh

/-- C7 (counterexample): full-width bracketed annotations (`【…】`) are not
removed by `_clean_show_name_for_search` (the pattern only handles ASCII
`[...]`), and `BDRip` loses only its `BD` prefix because the alternation
tries `BD` first — the claimed result `"A"` is not produced. -/
theorem C7_clean_show_name_counterexample :
    clean_show_name_for_search "A【B】BDRip" = "A【B】Rip"
    ∧ clean_show_name_for_search "A【B】BDRip" ≠ "A" := by
  constructor
  · decide
  · decide

/-- C7 (amended claim theorem): `_clean_show_name_for_search` removes
parenthesized 4-digit years, ASCII-bracketed annotations (full-width
brackets are untouched), standalone 4-digit years, resolution tags,
release-source tokens via a first-alternative-wins alternation (so `BDRip`
only loses its `BD` prefix) and codec tokens, case-insensitively; it then
collapses `._-` runs into single spaces and trims: the result never contains
`.`, `_` or `-`, never starts or ends with whitespace, and the concrete
examples behave as evaluated. -/
theorem C7_clean_show_name_amended :
    (∀ name : String, ∀ c ∈ (clean_show_name_for_search name).data,
        c ≠ '.' ∧ c ≠ '_' ∧ c ≠ '-')
    ∧ (∀ (name : String) (h : Char),
        (clean_show_name_for_search name).data.head? = some h →
        isPySpace h = false)
    ∧ (∀ (name : String) (h : Char),
        (clean_show_name_for_search name).data.getLast? = some h →
        isPySpace h = false)
    ∧ clean_show_name_for_search "夫妇交欢 (2023)" = "夫妇交欢"
    ∧ clean_show_name_for_search "Show.1080p.x264.WEB-DL" = "Show"
    ∧ clean_show_name_for_search "My Show [1080p] 2019 BluRay x265" = "My Show"
    ∧ clean_show_name_for_search "A【B】BDRip" = "A【B】Rip" := by
  refine ⟨?_, ?_, ?_, by decide, by decide, by decide, by decide⟩
  · intro name c hc
    have hsep := collapseSeps_sep_free _ c (mem_pyStrip hc)
    simp only [isSepC, Bool.or_eq_false_iff, decide_eq_false_iff_not] at hsep
    exact ⟨hsep.1.1, hsep.1.2, hsep.2⟩
  · intro name h hh
    exact pyStrip_head _ h hh
  · intro name h hh
    exact pyStrip_getLast _ h hh

/-- Witness for C7's amended theorem at concrete inputs. -/
theorem C7_clean_show_name_amended_witness :
    ('S' ≠ '.' ∧ 'S' ≠ '_' ∧ 'S' ≠ '-') ∧ isPySpace 'S' = false
    ∧ isPySpace 'w' = false :=
  ⟨C7_clean_show_name_amended.1 "Show.1080p.x264.WEB-DL" 'S' (by decide),
   C7_clean_show_name_amended.2.1 "Show.1080p.x264.WEB-DL" 'S' (by decide),
   C7_clean_show_name_amended.2.2.1 "Show.1080p.x264.WEB-DL" 'w' (by decide)⟩

/-! ## Episode-title sanitisation

`batch_scraper.py` cleans episode display titles before building target
filenames.  Lines 636-642 (`_organize_show_files`), 982-988
(`_organize_media_files`) and 1268-1274 / 1340-1343 (`_rename_files_inplace`)
truncate at the first `/`; lines 799 (`_organize_scattered_files`) and 1437
(`_organize_scattered_files_inplace`) instead drop `/` together with the
other illegal characters. -/

def illegalNoSlash : List Char := ['\\', ':', '*', '?', '"', '<', '>', '|']

def illegalWithSlash : List Char := ['/', '\\', ':', '*', '?', '"', '<', '>', '|']

/-- The `/`-truncating cleaner (organized-show, move-by-name and in-place
rename paths). -/
def safe_episode_title (t : String) : String :=
  if t.data.contains '/' then
    pyStripS ⟨(pySplit '/' t.data).headD []⟩
  else
    pyStripS ⟨t.data.filter (fun c => !illegalNoSlash.contains c)⟩

/-- The cleaner of the scattered-files paths: `/` is filtered out with the
other illegal characters, never truncated at. -/
def safe_episode_title_scattered (t : String) : String :=
  pyStripS ⟨t.data.filter (fun c => !illegalWithSlash.contains c)⟩

theorem pySplit_ne_nil (sep : Char) (l : List Char) : pySplit sep l ≠ [] := by
  cases l with
  | nil => simp [pySplit]
  | cons c rest =>
    rw [pySplit]
    split
    · simp
    · cases h : pySplit sep rest with
      | nil => simp
      | cons h t => simp

theorem pySplit_headD (sep : Char) (l : List Char) :
    (pySplit sep l).headD [] = l.takeWhile (fun c => c ≠ sep) := by
  induction l with
  | nil => simp [pySplit]
  | cons c rest ih =>
    rw [pySplit]
    by_cases hc : c = sep
    · simp [hc]
    · rw [if_neg hc]
      cases h : pySplit sep rest with
      | nil => exact absurd h (pySplit_ne_nil sep rest)
      | cons hd tl =>
        rw [h] at ih
        simp only [List.headD_cons] at ih ⊢
        rw [List.takeWhile_cons, if_pos (by simpa using hc), ih]

/-- C6 (counterexample): on the scattered-files reorganization paths a title
containing `/` is not truncated before the first `/` — the `/` is simply
removed, so `"A/B"` becomes `"AB"`, not the claimed `"A"`. -/
theorem C6_safe_title_counterexample :
    safe_episode_title_scattered "A/B" = "AB"
    ∧ safe_episode_title_scattered "A/B" ≠ "A" := by
  constructor
  · decide
  · decide

/-- C6 (amended claim theorem): on the organized-show, move-by-name and
in-place rename paths a title containing `/` yields the substring strictly
before the first `/` (stripped), and otherwise the characters
`\ : * ? " < > |` are removed; on the scattered-files paths `/` is instead
removed together with those illegal characters. -/
theorem C6_safe_title_amended :
    (∀ t : String, t.data.contains '/' = true →
        safe_episode_title t = pyStripS ⟨t.data.takeWhile (fun c => c ≠ '/')⟩)
    ∧ (∀ t : String, t.data.contains '/' = false →
        safe_episode_title t =
          pyStripS ⟨t.data.filter (fun c => !illegalNoSlash.contains c)⟩)
    ∧ (∀ t : String, safe_episode_title_scattered t =
        pyStripS ⟨t.data.filter (fun c => !illegalWithSlash.contains c)⟩)
    ∧ safe_episode_title "A/B" = "A"
    ∧ safe_episode_title " a\\b:c " = "abc"
    ∧ safe_episode_title_scattered "A/B" = "AB" := by
  refine ⟨?_, ?_, fun t => rfl, by decide, by decide, by decide⟩
  · intro t ht
    rw [safe_episode_title, if_pos ht, pySplit_headD]
  · intro t ht
    have hne : t.data.contains '/' ≠ true := by
      rw [ht]
      exact Bool.false_ne_true
    rw [safe_episode_title, if_neg hne]

/-- Witness for C6's amended theorem at concrete inputs. -/
theorem C6_safe_title_amended_witness :
    safe_episode_title "A/B" = pyStripS ⟨"A/B".data.takeWhile (fun c => c ≠ '/')⟩
    ∧ safe_episode_title "ab" =
        pyStripS ⟨"ab".data.filter (fun c => !illegalNoSlash.contains c)⟩ :=
  ⟨C6_safe_title_amended.1 "A/B" (by decide),
   C6_safe_title_amended.2.1 "ab" (by decide)⟩

/-! ## Shared data model of the file reorganizers (batch_scraper.py)

Files are `(directory components, stem, extension)`; a path is the directory
plus `stem ++ extension`.  Episode metadata entries carry the dictionary keys
the reorganizers read (`.get` with defaults is modelled by `Option`). -/

structure EpisodeEntry where
  season_number : Option Nat
  episode_number : Option Nat
  name : Option String
  name_zh : Option String
deriving DecidableEq, Repr

def epKey (e : EpisodeEntry) : Nat × Nat :=
  (e.season_number.getD 0, e.episode_number.getD 0)

/-- Python dict built by insertion with overwrite-on-collision: lookup
returns the last inserted entry with the key. -/
def episodeMapLookup (eps : List EpisodeEntry) (k : Nat × Nat) :
    Option EpisodeEntry :=
  (eps.filter (fun e => epKey e = k)).getLast?

/-- `_organize_show_files` / `_rename_files_inplace` build the map from
`episodes`, then overwrite `name_zh` from `translated_episodes` entries
sharing the key (lines 590-603 / 1217-1229). -/
def lookupEpisode (eps tr : List EpisodeEntry) (k : Nat × Nat) :
    Option EpisodeEntry :=
  match episodeMapLookup eps k with
  | none => none
  | some e =>
    match (tr.filter (fun t => epKey t = k)).getLast? with
    | some t => some { e with name_zh := some (t.name_zh.getD (t.name.getD "")) }
    | none => some e

/-- `episode_data.get("name_zh") or episode_data.get("name", f"Episode {n}")`:
`name_zh` wins when present and non-empty (Python truthiness of `or`). -/
def episodeDisplayTitle (e : EpisodeEntry) (epNum : Nat) : String :=
  match e.name_zh with
  | some s => if s = "" then e.name.getD ("Episode " ++ toString epNum) else s
  | none => e.name.getD ("Episode " ++ toString epNum)

/-- The slice of `metadata_result["normalized"]` the reorganizers read. -/
structure NormalizedMeta where
  title_zh : Option String
  title : Option String
  year : Int
deriving Repr

/-- `normalized.get("title_zh", normalized.get("title", fallback))`
(presence-based `dict.get` with default). -/
def showTitleOf (m : NormalizedMeta) (fallback : String) : String :=
  m.title_zh.getD (m.title.getD fallback)

/-- Python `f"{n:02d}"`. -/
def fmt2 (n : Nat) : String := if n < 10 then "0" ++ toString n else toString n

def seasonDirName (s : Nat) : String := "Season " ++ fmt2 s

/-- `f"{show_title} - S{s:02d}E{e:02d} - {safe_title}{extension}"`. -/
def episodeFileName (showT : String) (s e : Nat) (safeTitle ext : String) :
    String :=
  showT ++ " - S" ++ fmt2 s ++ "E" ++ fmt2 e ++ " - " ++ safeTitle ++ ext

/-- `new_filename.rsplit('.', 1)[0]`: drop the part from the last dot. -/
def dropLastExt (s : String) : String :=
  match s.data.reverse.dropWhile (fun c => c ≠ '.') with
  | [] => s
  | _ :: rest => ⟨rest.reverse⟩

/-! ### `_detect_subtitle_language` (batch_scraper.py 232-274) -/

def chineseIndicators : List String :=
  ["简中", "简体中文", "简体", "繁中", "繁体中文", "繁体",
   "zh", "chn", "chinese", "中文", "中字", "simplified",
   "traditional", "sc", "tc", "zn"]

def englishIndicators : List String :=
  ["en", "eng", "english", "英文", "英语", "英字",
   "us", "uk", "american", "british"]

def japaneseIndicators : List String :=
  ["jp", "jpn", "japanese", "ja", "日文", "日语", "日字",
   "nihongo", "にほんご", "ひらがな", "カタカナ"]

def detect_subtitle_language (filename : String) : String :=
  let lower := filename.data.map Char.toLower
  if chineseIndicators.any (fun i => containsSub lower i) then "zh"
  else if englishIndicators.any (fun i => containsSub lower i) then "en"
  else if japaneseIndicators.any (fun i => containsSub lower i) then "ja"
  else ""

/-- `_get_subtitle_language_suffix`. -/
def subtitleLangSuffix (filename : String) : String :=
  let lang := detect_subtitle_language filename
  if lang = "" then "" else "." ++ lang

/-! ### File objects -/

structure MFile where
  dir : List String
  stem : String
  ext : String
deriving DecidableEq, Repr

def MFile.path (f : MFile) : List String := f.dir ++ [f.stem ++ f.ext]

def MFile.name (f : MFile) : String := f.stem ++ f.ext

/-! ## `_organize_show_files` (batch_scraper.py 569-749)

The loop bodies are folds over the discovered video and subtitle files.
Whether an individual `shutil.move`/`copy2` raises is decided by an oracle
indexed by the attempt number; the ledger (`moved_files`, `failed_moves`)
and the final `rmtree` decision are modelled exactly as in the source. -/

structure OrganizeCtx where
  mediaDir : List String
  showFallback : String
  meta : NormalizedMeta
  episodes : List EpisodeEntry
  translated : List EpisodeEntry
  oracle : Nat → Bool

structure OrgState where
  moved : List (List String)
  moves : List (List String × List String)
  failed : Nat
  tick : Nat
deriving Repr

/-- One `shutil.move`/`shutil.copy2` attempt inside a `try`: on success the
source path is recorded in `moved_files`, on exception `failed_moves` is
incremented and processing continues. -/
def attemptOp (ctx : OrganizeCtx) (st : OrgState) (src dst : List String) :
    OrgState :=
  if ctx.oracle st.tick then
    { st with moved := st.moved ++ [src], moves := st.moves ++ [(src, dst)],
              tick := st.tick + 1 }
  else
    { st with failed := st.failed + 1, tick := st.tick + 1 }

/-- One subtitle inside the matching-subtitle loop of a video
(lines 669-685). -/
def orgSubStep1 (ctx : OrganizeCtx) (v : MFile) (newName sDir : String)
    (acc : OrgState) (sub : MFile) : OrgState :=
  if sub.stem = v.stem ∧ sub.path ∉ acc.moved then
    attemptOp ctx acc sub.path
      (ctx.mediaDir ++
        [sDir, dropLastExt newName ++ subtitleLangSuffix sub.name ++ sub.ext])
  else acc

/-- The inner loop over subtitles whose stem equals the video's stem
(lines 667-685). -/
def orgSubsForVideo (ctx : OrganizeCtx) (v : MFile) (newName sDir : String)
    (subs : List MFile) (st : OrgState) : OrgState :=
  subs.foldl (orgSubStep1 ctx v newName sDir) st

/-- Processing of one video file (lines 623-691). -/
def orgVideoStep (ctx : OrganizeCtx) (subs : List MFile) (st : OrgState)
    (v : MFile) : OrgState :=
  match parse_episode_info v.stem with
  | none => { st with failed := st.failed + 1 }
  | some (s, e) =>
    match lookupEpisode ctx.episodes ctx.translated (s, e) with
    | none => { st with failed := st.failed + 1 }
    | some ep =>
      let safe := safe_episode_title (episodeDisplayTitle ep e)
      let newName :=
        episodeFileName (showTitleOf ctx.meta ctx.showFallback) s e safe v.ext
      let sDir := seasonDirName s
      let st1 := attemptOp ctx st v.path (ctx.mediaDir ++ [sDir, newName])
      orgSubsForVideo ctx v newName sDir subs st1

/-- Processing of one leftover subtitle file (lines 694-735). -/
def orgSubStep2 (ctx : OrganizeCtx) (st : OrgState) (sub : MFile) : OrgState :=
  if sub.path ∈ st.moved then st
  else
    match parse_episode_info sub.stem with
    | none => { st with failed := st.failed + 1 }
    | some (s, e) =>
      match lookupEpisode ctx.episodes ctx.translated (s, e) with
      | none => { st with failed := st.failed + 1 }
      | some ep =>
        let safe := safe_episode_title (episodeDisplayTitle ep e)
        let newName :=
          episodeFileName (showTitleOf ctx.meta ctx.showFallback) s e safe sub.ext
        attemptOp ctx st sub.path (ctx.mediaDir ++ [seasonDirName s, newName])

structure OrganizeResult where
  moved : List (List String)
  moves : List (List String × List String)
  failed : Nat
  deleted : Bool
  report : Option (Nat × Nat × Nat)
deriving Repr

/-- `BatchMediaScraper._organize_show_files`: both loops, then the cleanup
decision of lines 737-749 (`rmtree` exactly when every discovered file was
moved and nothing failed; otherwise the directory is kept and the counts are
reported). -/
def organize_show_files (ctx : OrganizeCtx) (videos subs : List MFile) :
    OrganizeResult :=
  let st1 := videos.foldl (orgVideoStep ctx subs) ⟨[], [], 0, 0⟩
  let st2 := subs.foldl (orgSubStep2 ctx) st1
  let total := videos.length + subs.length
  if st2.moved.length = total ∧ st2.failed = 0 then
    { moved := st2.moved, moves := st2.moves, failed := st2.failed,
      deleted := true, report := none }
  else
    { moved := st2.moved, moves := st2.moves, failed := st2.failed,
      deleted := false, report := some (st2.moved.length, total, st2.failed) }

/-! ### Ledger invariants for C1 -/

theorem orgSubsForVideo_inv (ctx : OrganizeCtx) (v : MFile)
    (newName sDir : String) (subs : List MFile) :
    ∀ st : OrgState, st.moved.Nodup →
      (orgSubsForVideo ctx v newName sDir subs st).moved.Nodup ∧
      ∀ p ∈ (orgSubsForVideo ctx v newName sDir subs st).moved,
        p ∈ st.moved ∨ p ∈ subs.map MFile.path := by
  induction subs with
  | nil => exact fun st h => ⟨h, fun p hp => Or.inl hp⟩
  | cons sub rest ih =>
    intro st h
    have hstep : orgSubsForVideo ctx v newName sDir (sub :: rest) st =
        orgSubsForVideo ctx v newName sDir rest
          (orgSubStep1 ctx v newName sDir st sub) := rfl
    rw [hstep]
    have hnd : (orgSubStep1 ctx v newName sDir st sub).moved.Nodup ∧
        ∀ p ∈ (orgSubStep1 ctx v newName sDir st sub).moved,
          p ∈ st.moved ∨ p = sub.path := by
      unfold orgSubStep1
      split
      · rename_i hg
        unfold attemptOp
        split
        · refine ⟨?_, ?_⟩
          · simpa [List.nodup_append] using ⟨h, fun hp => hg.2 hp⟩
          · intro p hp
            rcases List.mem_append.mp hp with hp | hp
            · exact Or.inl hp
            · simp at hp
              exact Or.inr hp
        · exact ⟨h, fun p hp => Or.inl hp⟩
      · exact ⟨h, fun p hp => Or.inl hp⟩
    obtain ⟨ih1, ih2⟩ := ih _ hnd.1
    refine ⟨ih1, fun p hp => ?_⟩
    rcases ih2 p hp with hp' | hp'
    · rcases hnd.2 p hp' with hp'' | hp''
      · exact Or.inl hp''
      · subst hp''
        exact Or.inr (by simp)
    · exact Or.inr (by simp [hp'])

theorem orgVideoStep_inv (ctx : OrganizeCtx) (subs : List MFile)
    (st : OrgState) (v : MFile) (h : st.moved.Nodup)
    (hfresh : v.path ∉ st.moved) :
    (orgVideoStep ctx subs st v).moved.Nodup ∧
    ∀ p ∈ (orgVideoStep ctx subs st v).moved,
      p ∈ st.moved ∨ p = v.path ∨ p ∈ subs.map MFile.path := by
  unfold orgVideoStep
  cases hp : parse_episode_info v.stem with
  | none => exact ⟨h, fun p hp' => Or.inl hp'⟩
  | some se =>
    obtain ⟨s, e⟩ := se
    dsimp only
    cases hl : lookupEpisode ctx.episodes ctx.translated (s, e) with
    | none => exact ⟨h, fun p hp' => Or.inl hp'⟩
    | some ep =>
      dsimp only
      have hattempt : (attemptOp ctx st v.path
          (ctx.mediaDir ++ [seasonDirName s,
            episodeFileName (showTitleOf ctx.meta ctx.showFallback) s e
              (safe_episode_title (episodeDisplayTitle ep e)) v.ext])).moved.Nodup ∧
          ∀ p ∈ (attemptOp ctx st v.path
            (ctx.mediaDir ++ [seasonDirName s,
              episodeFileName (showTitleOf ctx.meta ctx.showFallback) s e
                (safe_episode_title (episodeDisplayTitle ep e)) v.ext])).moved,
            p ∈ st.moved ∨ p = v.path := by
        unfold attemptOp
        split
        · refine ⟨by simpa [List.nodup_append] using ⟨h, fun hp => hfresh hp⟩, ?_⟩
          intro p hp
          rcases List.mem_append.mp hp with hp | hp
          · exact Or.inl hp
          · simp at hp
            exact Or.inr hp
        · exact ⟨h, fun p hp => Or.inl hp⟩
      obtain ⟨hi1, hi2⟩ := orgSubsForVideo_inv ctx v _ _ subs _ hattempt.1
      refine ⟨hi1, fun p hp => ?_⟩
      rcases hi2 p hp with hp' | hp'
      · rcases hattempt.2 p hp' with hp'' | hp''
        · exact Or.inl hp''
        · exact Or.inr (Or.inl hp'')
      · exact Or.inr (Or.inr hp')

theorem orgVideosFold_inv (ctx : OrganizeCtx) (subs : List MFile) :
    ∀ (vs : List MFile) (st : OrgState), st.moved.Nodup →
      (∀ v ∈ vs, v.path ∉ st.moved) → (vs.map MFile.path).Nodup →
      (∀ v ∈ vs, v.path ∉ subs.map MFile.path) →
      (vs.foldl (orgVideoStep ctx subs) st).moved.Nodup ∧
      ∀ p ∈ (vs.foldl (orgVideoStep ctx subs) st).moved,
        p ∈ st.moved ∨ p ∈ vs.map MFile.path ∨ p ∈ subs.map MFile.path := by
  intro vs
  induction vs with
  | nil => exact fun st h _ _ _ => ⟨h, fun p hp => Or.inl hp⟩
  | cons v rest ih =>
    intro st h hfresh hvnd hvs
    rw [List.foldl_cons]
    obtain ⟨h1, h2⟩ := orgVideoStep_inv ctx subs st v h (hfresh v (by simp))
    have hvnd' : (rest.map MFile.path).Nodup := by
      simpa using hvnd.of_cons
    have hne : ∀ v' ∈ rest, v'.path ≠ v.path := by
      intro v' hv' heq
      have : v.path ∈ rest.map MFile.path := by
        rw [← heq]
        exact List.mem_map_of_mem _ hv'
      simp only [List.map_cons, List.nodup_cons] at hvnd
      exact hvnd.1 this
    have hfresh' : ∀ v' ∈ rest, v'.path ∉ (orgVideoStep ctx subs st v).moved := by
      intro v' hv' hmem
      rcases h2 _ hmem with hm | hm | hm
      · exact hfresh v' (by simp [hv']) hm
      · exact hne v' hv' hm
      · exact hvs v' (by simp [hv']) hm
    obtain ⟨hi1, hi2⟩ := ih _ h1 hfresh' hvnd'
        (fun v' hv' => hvs v' (by simp [hv']))
    refine ⟨hi1, fun p hp => ?_⟩
    rcases hi2 p hp with hp' | hp' | hp'
    · rcases h2 p hp' with hm | hm | hm
      · exact Or.inl hm
      · exact Or.inr (Or.inl (by simp [hm]))
      · exact Or.inr (Or.inr hm)
    · exact Or.inr (Or.inl (by simp [hp']))
    · exact Or.inr (Or.inr hp')

theorem orgSubs2Fold_inv (ctx : OrganizeCtx) :
    ∀ (ss : List MFile) (st : OrgState), st.moved.Nodup →
      (ss.foldl (orgSubStep2 ctx) st).moved.Nodup ∧
      ∀ p ∈ (ss.foldl (orgSubStep2 ctx) st).moved,
        p ∈ st.moved ∨ p ∈ ss.map MFile.path := by
  intro ss
  induction ss with
  | nil => exact fun st h => ⟨h, fun p hp => Or.inl hp⟩
  | cons sub rest ih =>
    intro st h
    rw [List.foldl_cons]
    have hstep : (orgSubStep2 ctx st sub).moved.Nodup ∧
        ∀ p ∈ (orgSubStep2 ctx st sub).moved, p ∈ st.moved ∨ p = sub.path := by
      unfold orgSubStep2
      split
      · exact ⟨h, fun p hp => Or.inl hp⟩
      · rename_i hg
        cases hp : parse_episode_info sub.stem with
        | none => exact ⟨h, fun p hp' => Or.inl hp'⟩
        | some se =>
          obtain ⟨s, e⟩ := se
          dsimp only
          cases hl : lookupEpisode ctx.episodes ctx.translated (s, e) with
          | none => exact ⟨h, fun p hp' => Or.inl hp'⟩
          | some ep =>
            dsimp only
            unfold attemptOp
            split
            · refine ⟨by simpa [List.nodup_append] using ⟨h, fun hp => hg hp⟩, ?_⟩
              intro p hp
              rcases List.mem_append.mp hp with hp | hp
              · exact Or.inl hp
              · simp at hp
                exact Or.inr hp
            · exact ⟨h, fun p hp => Or.inl hp⟩
    obtain ⟨hi1, hi2⟩ := ih _ hstep.1
    refine ⟨hi1, fun p hp => ?_⟩
    rcases hi2 p hp with hp' | hp'
    · rcases hstep.2 p hp' with hm | hm
      · exact Or.inl hm
      · exact Or.inr (by simp [hm])
    · exact Or.inr (by simp [hp'])

theorem mem_of_subset_of_length_eq {α : Type _} [DecidableEq α]
    {l₁ l₂ : List α} (h₁ : l₁.Nodup) (h₂ : l₂.Nodup)
    (hsub : ∀ p ∈ l₁, p ∈ l₂) (hlen : l₁.length = l₂.length) :
    ∀ p ∈ l₂, p ∈ l₁ := by
  intro p hp
  have hfs : l₁.toFinset ⊆ l₂.toFinset := by
    intro x hx
    rw [List.mem_toFinset] at hx ⊢
    exact hsub x hx
  have hc1 : l₁.toFinset.card = l₁.length := List.toFinset_card_of_nodup h₁
  have hc2 : l₂.toFinset.card = l₂.length := List.toFinset_card_of_nodup h₂
  have heq : l₁.toFinset = l₂.toFinset :=
    Finset.eq_of_subset_of_card_le hfs (by omega)
  rw [← List.mem_toFinset, ← heq, List.mem_toFinset] at hp
  exact hp

/-- C1 (claim theorem): for every reorganization run of
`_organize_show_files` (any metadata, any file set without duplicated paths,
any pattern of I/O successes and failures), the original directory is
deleted exactly when the number of successfully moved/copied files equals
the number of discovered video plus subtitle files and the failed-move
counter is zero; otherwise it is kept and the counts are reported.  When
deletion happens, every single discovered file was in fact successfully
relocated. -/
theorem C1_organize_cleanup_invariant (ctx : OrganizeCtx)
    (videos subs : List MFile)
    (hnd : (videos.map MFile.path ++ subs.map MFile.path).Nodup) :
    ((organize_show_files ctx videos subs).deleted = true ↔
      (organize_show_files ctx videos subs).moved.length =
          videos.length + subs.length ∧
      (organize_show_files ctx videos subs).failed = 0)
    ∧ ((organize_show_files ctx videos subs).deleted = false →
        (organize_show_files ctx videos subs).report =
          some ((organize_show_files ctx videos subs).moved.length,
            videos.length + subs.length,
            (organize_show_files ctx videos subs).failed))
    ∧ ((organize_show_files ctx videos subs).deleted = true →
        ∀ p ∈ videos.map MFile.path ++ subs.map MFile.path,
          p ∈ (organize_show_files ctx videos subs).moved) := by
  rw [List.nodup_append] at hnd
  obtain ⟨hvnd, hsnd, hdisj⟩ := hnd
  have hvs : ∀ v ∈ videos, v.path ∉ subs.map MFile.path := by
    intro v hv
    exact hdisj (List.mem_map_of_mem _ hv)
  obtain ⟨h1nd, h1sub⟩ := orgVideosFold_inv ctx subs videos ⟨[], [], 0, 0⟩
    (by simp) (by simp) hvnd hvs
  obtain ⟨h2nd, h2sub⟩ := orgSubs2Fold_inv ctx subs _ h1nd
  set st2 := subs.foldl (orgSubStep2 ctx)
    (videos.foldl (orgVideoStep ctx subs) ⟨[], [], 0, 0⟩) with hst2
  have hsub : ∀ p ∈ st2.moved,
      p ∈ videos.map MFile.path ++ subs.map MFile.path := by
    intro p hp
    rcases h2sub p hp with hp' | hp'
    · rcases h1sub p hp' with hp'' | hp'' | hp''
      · simp at hp''
      · exact List.mem_append.mpr (Or.inl hp'')
      · exact List.mem_append.mpr (Or.inr hp'')
    · exact List.mem_append.mpr (Or.inr hp')
  unfold organize_show_files
  dsimp only
  rw [← hst2]
  split
  · rename_i hcond
    refine ⟨by simpa using hcond, by simp, ?_⟩
    intro _ p hp
    have hlen : st2.moved.length =
        (videos.map MFile.path ++ subs.map MFile.path).length := by
      simp [hcond.1]
    exact mem_of_subset_of_length_eq h2nd
      ((List.nodup_append).mpr ⟨hvnd, hsnd, hdisj⟩) hsub hlen p hp
  · rename_i hcond
    refine ⟨?_, fun _ => rfl, by simp⟩
    simpa using hcond

/-- Example inputs for the C1 witness: three video files, one of which has
an unparseable name; all I/O succeeds. -/
def egMeta : NormalizedMeta := ⟨none, some "A", 2020⟩

def egEpisodes : List EpisodeEntry :=
  [⟨some 1, some 1, some "T", none⟩, ⟨some 1, some 2, some "U", none⟩]

def egCtx : OrganizeCtx :=
  ⟨["out"], "A", egMeta, egEpisodes, [], fun _ => true⟩

def egVideos : List MFile :=
  [⟨["in"], "A - S01E01 - T", ".mkv"⟩, ⟨["in"], "A - S01E02 - U", ".mkv"⟩,
   ⟨["in"], "badfile", ".mkv"⟩]

/-- Witness for C1: with one unparseable video among three, the directory
is kept and the counts are reported. -/
theorem C1_organize_cleanup_invariant_witness :
    (organize_show_files egCtx egVideos []).report =
      some ((organize_show_files egCtx egVideos []).moved.length,
        egVideos.length + ([] : List MFile).length,
        (organize_show_files egCtx egVideos []).failed) :=
  (C1_organize_cleanup_invariant egCtx egVideos [] (by decide)).2.1 (by decide)

/-! ## `_rename_files_inplace` (batch_scraper.py 1204-1387)

In-place mode: video and subtitle files are renamed inside the show root.
A file already carrying its computed canonical path is skipped
(`if video_file != new_video_path`) but still counted in `renamed_count`.
Subtitle existence (`subtitle_file.exists()`) is tracked through the list of
original paths already moved away. -/

structure RenameCtx where
  showPath : List String
  showFallback : String
  meta : NormalizedMeta
  episodes : List EpisodeEntry
  translated : List EpisodeEntry
  oracle : Nat → Bool

structure RenState where
  moves : List (List String × List String)
  movedAway : List (List String)
  renamed : Nat
  skipped : Nat
  tick : Nat
deriving Repr

/-- `re.search(r'S\d{1,2}E\d{1,2}', s, re.IGNORECASE)` used as the
pre-filter of both loops (lines 1251, 1327). -/
def hasSEToken (s : String) : Bool := (reSearch tryS_E s.data).isSome

/-- The canonical destination `_rename_files_inplace` computes for a video
file, `none` when the file would be skipped (no `SxxExx` token) or left
untouched (unparseable, no episode metadata). -/
def renameVideoTarget (ctx : RenameCtx) (v : MFile) : Option (List String) :=
  if hasSEToken v.stem then
    match parse_episode_info v.stem with
    | none => none
    | some (s, e) =>
      match lookupEpisode ctx.episodes ctx.translated (s, e) with
      | none => none
      | some ep =>
        some (ctx.showPath ++ [seasonDirName s,
          episodeFileName (showTitleOf ctx.meta ctx.showFallback) s e
            (safe_episode_title (episodeDisplayTitle ep e)) v.ext])
  else none

/-- The canonical destination for a subtitle file (language suffix
included), as computed by the leftover-subtitle loop (lines 1332-1354). -/
def renameSubTarget (ctx : RenameCtx) (sub : MFile) : Option (List String) :=
  if hasSEToken sub.stem then
    match parse_episode_info sub.stem with
    | none => none
    | some (s, e) =>
      match lookupEpisode ctx.episodes ctx.translated (s, e) with
      | none => none
      | some ep =>
        some (ctx.showPath ++ [seasonDirName s,
          episodeFileName (showTitleOf ctx.meta ctx.showFallback) s e
            (safe_episode_title (episodeDisplayTitle ep e))
            (subtitleLangSuffix sub.name ++ sub.ext)])
  else none

/-- One matching subtitle inside a video's rename step (lines 1297-1315). -/
def renSubStep1 (ctx : RenameCtx) (v : MFile) (s e : Nat) (safe : String)
    (acc : RenState) (sub : MFile) : RenState :=
  if sub.stem = v.stem ∧ sub.path ∉ acc.movedAway then
    let dst := ctx.showPath ++ [seasonDirName s,
      episodeFileName (showTitleOf ctx.meta ctx.showFallback) s e safe
        (subtitleLangSuffix sub.name ++ sub.ext)]
    if sub.path ≠ dst then
      if ctx.oracle acc.tick then
        { acc with moves := acc.moves ++ [(sub.path, dst)],
                   movedAway := acc.movedAway ++ [sub.path],
                   renamed := acc.renamed + 1, tick := acc.tick + 1 }
      else { acc with tick := acc.tick + 1 }
    else { acc with renamed := acc.renamed + 1 }
  else acc

/-- Renaming of one video file plus its matching subtitles
(lines 1248-1319). -/
def renVideoStep (ctx : RenameCtx) (subs : List MFile) (st : RenState)
    (v : MFile) : RenState :=
  if hasSEToken v.stem then
    match parse_episode_info v.stem with
    | none => st
    | some (s, e) =>
      match lookupEpisode ctx.episodes ctx.translated (s, e) with
      | none => st
      | some ep =>
        let safe := safe_episode_title (episodeDisplayTitle ep e)
        let dst := ctx.showPath ++ [seasonDirName s,
          episodeFileName (showTitleOf ctx.meta ctx.showFallback) s e safe v.ext]
        let st1 :=
          if v.path ≠ dst then
            if ctx.oracle st.tick then
              { st with moves := st.moves ++ [(v.path, dst)],
                        renamed := st.renamed + 1, tick := st.tick + 1 }
            else { st with tick := st.tick + 1 }
          else { st with renamed := st.renamed + 1 }
        subs.foldl (renSubStep1 ctx v s e safe) st1
  else { st with skipped := st.skipped + 1 }

/-- Renaming of one leftover subtitle file (lines 1322-1363). -/
def renSubStep2 (ctx : RenameCtx) (st : RenState) (sub : MFile) : RenState :=
  if sub.path ∈ st.movedAway then st
  else if hasSEToken sub.stem then
    match parse_episode_info sub.stem with
    | none => st
    | some (s, e) =>
      match lookupEpisode ctx.episodes ctx.translated (s, e) with
      | none => st
      | some ep =>
        let dst := ctx.showPath ++ [seasonDirName s,
          episodeFileName (showTitleOf ctx.meta ctx.showFallback) s e
            (safe_episode_title (episodeDisplayTitle ep e))
            (subtitleLangSuffix sub.name ++ sub.ext)]
        if sub.path ≠ dst then
          if ctx.oracle st.tick then
            { st with moves := st.moves ++ [(sub.path, dst)],
                      movedAway := st.movedAway ++ [sub.path],
                      renamed := st.renamed + 1, tick := st.tick + 1 }
          else { st with tick := st.tick + 1 }
        else { st with renamed := st.renamed + 1 }
  else { st with skipped := st.skipped + 1 }

structure RenameResult where
  moves : List (List String × List String)
  renamed : Nat
  skipped : Nat
  dirMove : Option (List String × List String)
deriving Repr

/-- `BatchMediaScraper._rename_files_inplace`: both loops, then the final
rename of the show directory itself to `"{safe_title} ({year})"`
(lines 1367-1387), skipped when the name already matches. -/
def rename_files_inplace (ctx : RenameCtx) (videos subs : List MFile) :
    RenameResult :=
  let st1 := videos.foldl (renVideoStep ctx subs) ⟨[], [], 0, 0, 0⟩
  let st2 := subs.foldl (renSubStep2 ctx) st1
  let showTitle := showTitleOf ctx.meta ctx.showFallback
  let safeDir :=
    pyStripS ⟨showTitle.data.filter (fun c => !illegalWithSlash.contains c)⟩
  let newDirPath :=
    ctx.showPath.dropLast ++ [safeDir ++ " (" ++ toString ctx.meta.year ++ ")"]
  { moves := st2.moves, renamed := st2.renamed, skipped := st2.skipped,
    dirMove :=
      if ctx.showPath ≠ newDirPath then some (ctx.showPath, newDirPath)
      else none }

/-! ### Idempotence of the in-place rename (C8) -/

theorem renSubs1Fold_canonical (ctx : RenameCtx) (v : MFile) (s e : Nat)
    (safe : String) (subs : List MFile)
    (ht : ∀ sub ∈ subs, sub.stem = v.stem →
      ctx.showPath ++ [seasonDirName s,
        episodeFileName (showTitleOf ctx.meta ctx.showFallback) s e safe
          (subtitleLangSuffix sub.name ++ sub.ext)] = sub.path) :
    ∀ st : RenState, st.movedAway = [] →
      (subs.foldl (renSubStep1 ctx v s e safe) st).moves = st.moves ∧
      (subs.foldl (renSubStep1 ctx v s e safe) st).movedAway = [] ∧
      (subs.foldl (renSubStep1 ctx v s e safe) st).skipped = st.skipped ∧
      (subs.foldl (renSubStep1 ctx v s e safe) st).tick = st.tick ∧
      (subs.foldl (renSubStep1 ctx v s e safe) st).renamed =
        st.renamed + (subs.filter (fun sub => sub.stem = v.stem)).length := by
  induction subs with
  | nil => exact fun st hma => ⟨rfl, hma, rfl, rfl, by simp⟩
  | cons sub rest ih =>
    intro st hma
    rw [List.foldl_cons]
    by_cases hm : sub.stem = v.stem
    · have hdst := ht sub (by simp) hm
      have hstep : renSubStep1 ctx v s e safe st sub =
          { st with renamed := st.renamed + 1 } := by
        unfold renSubStep1
        rw [if_pos ⟨hm, by simp [hma]⟩, if_neg (by simp [hdst])]
      rw [hstep]
      obtain ⟨i1, i2, i3, i4, i5⟩ :=
        ih (fun s' hs' => ht s' (by simp [hs']))
          { st with renamed := st.renamed + 1 } hma
      refine ⟨i1, i2, i3, i4, ?_⟩
      rw [i5]
      simp [List.filter_cons, hm]
      omega
    · have hstep : renSubStep1 ctx v s e safe st sub = st := by
        unfold renSubStep1
        rw [if_neg (by simp [hm])]
      rw [hstep]
      obtain ⟨i1, i2, i3, i4, i5⟩ :=
        ih (fun s' hs' => ht s' (by simp [hs'])) st hma
      refine ⟨i1, i2, i3, i4, ?_⟩
      rw [i5]
      simp [List.filter_cons, hm]

theorem renVideosFold_canonical (ctx : RenameCtx) (subs : List MFile)
    (hsubs : ∀ sub ∈ subs, renameSubTarget ctx sub = some sub.path) :
    ∀ (vs : List MFile) (st : RenState), st.movedAway = [] →
      (∀ v ∈ vs, renameVideoTarget ctx v = some v.path) →
      (vs.foldl (renVideoStep ctx subs) st).moves = st.moves ∧
      (vs.foldl (renVideoStep ctx subs) st).movedAway = [] ∧
      (vs.foldl (renVideoStep ctx subs) st).skipped = st.skipped ∧
      (vs.foldl (renVideoStep ctx subs) st).tick = st.tick ∧
      (vs.foldl (renVideoStep ctx subs) st).renamed = st.renamed +
        (vs.map (fun v =>
          1 + (subs.filter (fun sub => sub.stem = v.stem)).length)).sum := by
  intro vs
  induction vs with
  | nil => exact fun st hma _ => ⟨rfl, hma, rfl, rfl, by simp⟩
  | cons v rest ih =>
    intro st hma hv
    rw [List.foldl_cons]
    have hvt := hv v (by simp)
    unfold renameVideoTarget at hvt
    cases hse : hasSEToken v.stem with
    | false => rw [hse] at hvt; simp at hvt
    | true =>
      rw [hse] at hvt
      simp only [if_true] at hvt
      cases hp : parse_episode_info v.stem with
      | none => rw [hp] at hvt; simp at hvt
      | some se =>
        obtain ⟨s, e⟩ := se
        rw [hp] at hvt
        dsimp only at hvt
        cases hl : lookupEpisode ctx.episodes ctx.translated (s, e) with
        | none => rw [hl] at hvt; simp at hvt
        | some ep =>
          rw [hl] at hvt
          dsimp only at hvt
          have hdst := Option.some.inj hvt
          have hstep : renVideoStep ctx subs st v =
              subs.foldl
                (renSubStep1 ctx v s e
                  (safe_episode_title (episodeDisplayTitle ep e)))
                { st with renamed := st.renamed + 1 } := by
            unfold renVideoStep
            rw [hse]
            simp only [if_true]
            rw [hp]
            dsimp only
            rw [hl]
            dsimp only
            rw [if_neg (by simp [hdst])]
          rw [hstep]
          have ht : ∀ sub ∈ subs, sub.stem = v.stem →
              ctx.showPath ++ [seasonDirName s,
                episodeFileName (showTitleOf ctx.meta ctx.showFallback) s e
                  (safe_episode_title (episodeDisplayTitle ep e))
                  (subtitleLangSuffix sub.name ++ sub.ext)] = sub.path := by
            intro sub hsub hstem
            have hst := hsubs sub hsub
            unfold renameSubTarget at hst
            rw [hstem, hse] at hst
            simp only [if_true] at hst
            rw [hp] at hst
            dsimp only at hst
            rw [hl] at hst
            dsimp only at hst
            exact Option.some.inj hst
          obtain ⟨s1, s2, s3, s4, s5⟩ :=
            renSubs1Fold_canonical ctx v s e _ subs ht
              { st with renamed := st.renamed + 1 } hma
          obtain ⟨i1, i2, i3, i4, i5⟩ := ih _ s2 (fun v' hv' => hv v' (by simp [hv']))
          refine ⟨by rw [i1, s1], i2, by rw [i3, s3], by rw [i4, s4], ?_⟩
          rw [i5, s5]
          simp only [List.map_cons, List.sum_cons]
          omega

theorem renSubs2Fold_canonical (ctx : RenameCtx) :
    ∀ (ss : List MFile) (st : RenState), st.movedAway = [] →
      (∀ sub ∈ ss, renameSubTarget ctx sub = some sub.path) →
      (ss.foldl (renSubStep2 ctx) st).moves = st.moves ∧
      (ss.foldl (renSubStep2 ctx) st).movedAway = [] ∧
      (ss.foldl (renSubStep2 ctx) st).skipped = st.skipped ∧
      (ss.foldl (renSubStep2 ctx) st).renamed = st.renamed + ss.length := by
  intro ss
  induction ss with
  | nil => exact fun st hma _ => ⟨rfl, hma, rfl, by simp⟩
  | cons sub rest ih =>
    intro st hma hs
    rw [List.foldl_cons]
    have hst := hs sub (by simp)
    unfold renameSubTarget at hst
    cases hse : hasSEToken sub.stem with
    | false => rw [hse] at hst; simp at hst
    | true =>
      rw [hse] at hst
      simp only [if_true] at hst
      cases hp : parse_episode_info sub.stem with
      | none => rw [hp] at hst; simp at hst
      | some se =>
        obtain ⟨s, e⟩ := se
        rw [hp] at hst
        dsimp only at hst
        cases hl : lookupEpisode ctx.episodes ctx.translated (s, e) with
        | none => rw [hl] at hst; simp at hst
        | some ep =>
          rw [hl] at hst
          dsimp only at hst
          have hdst := Option.some.inj hst
          have hstep : renSubStep2 ctx st sub =
              { st with renamed := st.renamed + 1 } := by
            unfold renSubStep2
            rw [if_neg (by simp [hma])]
            rw [hse]
            simp only [if_true]
            rw [hp]
            dsimp only
            rw [hl]
            dsimp only
            rw [if_neg (by simp [hdst])]
          rw [hstep]
          obtain ⟨i1, i2, i3, i4⟩ :=
            ih { st with renamed := st.renamed + 1 } hma
              (fun s' hs' => hs s' (by simp [hs']))
          refine ⟨i1, i2, i3, ?_⟩
          rw [i4]
          simp
          omega

theorem length_le_sum_one_add (f : MFile → Nat) (vs : List MFile) :
    vs.length ≤ (vs.map (fun v => 1 + f v)).sum := by
  induction vs with
  | nil => simp
  | cons v rest ih =>
    simp only [List.map_cons, List.sum_cons, List.length_cons]
    omega

/-- C8 (claim theorem): when every discovered video and subtitle file
already carries its canonically computed path (the situation after a
successful in-place run), `_rename_files_inplace` performs zero file moves —
each computed destination equals the current source, so every move is
skipped — no file is skipped for lacking an `SxxExx` token, and every file
is still counted as successfully processed (`renamed_count` covers all of
them). -/
theorem C8_rename_inplace_idempotent (ctx : RenameCtx)
    (videos subs : List MFile)
    (hv : ∀ v ∈ videos, renameVideoTarget ctx v = some v.path)
    (hs : ∀ sub ∈ subs, renameSubTarget ctx sub = some sub.path) :
    (rename_files_inplace ctx videos subs).moves = []
    ∧ (rename_files_inplace ctx videos subs).skipped = 0
    ∧ videos.length + subs.length ≤
        (rename_files_inplace ctx videos subs).renamed := by
  obtain ⟨l1, l2, l3, l4, l5⟩ :=
    renVideosFold_canonical ctx subs hs videos ⟨[], [], 0, 0, 0⟩ rfl hv
  obtain ⟨m1, m2, m3, m4⟩ :=
    renSubs2Fold_canonical ctx subs _ l2 hs
  unfold rename_files_inplace
  dsimp only
  refine ⟨by rw [m1, l1], by rw [m3, l3], ?_⟩
  rw [m4, l5]
  have := length_le_sum_one_add
    (fun v => (subs.filter (fun sub => sub.stem = v.stem)).length) videos
  omega

/-- Canonical single-episode example for the C8 witness. -/
def egRenCtx : RenameCtx :=
  ⟨["root"], "A", ⟨none, some "A", 2020⟩,
   [⟨some 1, some 1, some "T", none⟩], [], fun _ => true⟩

def egRenVideo : MFile := ⟨["root", "Season 01"], "A - S01E01 - T", ".mkv"⟩

def egRenSub : MFile := ⟨["root", "Season 01"], "A - S01E01 - T.zh", ".srt"⟩

/-- Witness for C8 on a concrete already-canonical directory. -/
theorem C8_rename_inplace_idempotent_witness :
    (rename_files_inplace egRenCtx [egRenVideo] [egRenSub]).moves = []
    ∧ (rename_files_inplace egRenCtx [egRenVideo] [egRenSub]).skipped = 0
    ∧ [egRenVideo].length + [egRenSub].length ≤
        (rename_files_inplace egRenCtx [egRenVideo] [egRenSub]).renamed :=
  C8_rename_inplace_idempotent egRenCtx [egRenVideo] [egRenSub]
    (by decide) (by decide)

/-! ## `DataNormalizer` (src/core/normalize.py)

Raw TMDB/OMDB payloads are structures whose `Option` fields model absent
dictionary keys.  Purely numeric JSON values that the code only copies
verbatim (`vote_average`, `popularity`, …) are carried as opaque strings.
Python's `list(set(...))` has unspecified iteration order; it is modelled by
`List.dedup`, which agrees on membership and emptiness. -/

structure CrewMember where
  job : Option String
  department : Option String
  name : Option String
deriving DecidableEq, Repr

structure CastCredit where
  name : Option String
  character : Option String
  original_name : Option String
  profile_path : Option String
  popularity : Option String
deriving DecidableEq, Repr

structure CreditsData where
  cast : List CastCredit
  crew : List CrewMember
deriving Repr

structure SourceEpisode where
  season_number : Option Nat
  episode_number : Option Nat
  name : Option String
  overview : Option String
  air_date : Option String
  crew : List CrewMember
deriving DecidableEq, Repr

structure KwEntry where
  name : Option String
deriving Repr

structure KeywordsData where
  keywords : List KwEntry
  results : List KwEntry
deriving Repr

structure TranslationEntry where
  iso_639_1 : String
  title : Option String
  name : Option String
  overview : Option String
deriving Repr

structure TVPayload where
  id : Option Int
  name : Option String
  original_name : Option String
  overview : Option String
  tagline : Option String
  first_air_date : Option String
  episode_run_time : List Int
  vote_average : Option String
  vote_count : Option String
  genres : List String
  origin_country : List String
  languages : List String
  production_companies : List String
  networks : List (Option String)
  status : Option String
  homepage : Option String
  seasons : List Nat
  imdb_id : Option String
  translations : Option (List TranslationEntry)
deriving Repr

structure MoviePayload where
  id : Option Int
  title : Option String
  original_title : Option String
  overview : Option String
  tagline : Option String
  release_date : Option String
  runtime : Option Int
  vote_average : Option String
  vote_count : Option String
  genres : List String
  production_countries : List String
  spoken_languages : List String
  production_companies : List String
  imdb_id : Option String
  translations : Option (List TranslationEntry)
deriving Repr

structure CastMember where
  name_en : String
  name_zh : Option String
  role : String
  original_name : String
  profile_path : String
  popularity : Option String
deriving DecidableEq, Repr

/-- The canonical in-memory record (`normalized`).  Keys the movie
normalizer never creates (`networks`, `status`, …) are carried as their
empty/default values. -/
structure NRecord where
  media_type : String
  tmdb_id : Option Int
  title : String
  original_title : Option String
  year : Int
  plot : Option String
  tagline : Option String
  runtime : Option Int
  release_date : Option String
  rating : Option String
  rating_count : Option String
  genres : List String
  countries : List String
  languages : List String
  studios : List String
  networks : List String
  network : String
  status : String
  homepage : String
  cast : List CastMember
  directors : List String
  writers : List String
  seasons : List Nat
  episodes : List SourceEpisode
  title_zh : Option String
  plot_zh : Option String
  keywords : Option (List String)
  keywords_en : Option (List String)
  keywords_zh : Option (List String)
  genres_zh : Option (List String)
  omdb_id : Option String
deriving Repr, DecidableEq, Inhabited

/-- CJK heuristic `re.search(r'[一-鿿]', s)`. -/
def containsCJK (s : String) : Bool :=
  s.data.any (fun c => 0x4E00 ≤ c.toNat && c.toNat ≤ 0x9FFF)

/-- `int(data.get(key, "0000-00-00")[:4]) if data.get(key) else 0`: absent or
empty dates give 0; a present date has its first four characters fed to
`int()`, which raises (modelled as `Except.error`) when they are not a valid
integer literal. -/
def yearFromDate (d : Option String) : Except String Int :=
  match d with
  | none => .ok 0
  | some fd =>
    if fd = "" then .ok 0
    else
      match pyInt? (fd.data.take 4) with
      | some y => .ok y
      | none => .error "invalid literal for int() with base 10"

/-- `DataNormalizer.normalize_tmdb_tv` (normalize.py 53-109). -/
def normalize_tmdb_tv (d : TVPayload) : Except String NRecord :=
  match yearFromDate d.first_air_date with
  | .error e => .error e
  | .ok y =>
    let title := d.name.getD ""
    let overview := d.overview.getD ""
    let zh0 : Option String × Option String :=
      (if containsCJK title then some title else none,
       if containsCJK overview then some overview else none)
    let zh1 : Option String × Option String :=
      match d.translations with
      | some ts =>
        match ts.find? (fun t => t.iso_639_1 = "zh") with
        | some t => (t.name, t.overview)
        | none => zh0
      | none => zh0
    .ok {
      media_type := "tv", tmdb_id := d.id, title := title,
      original_title := d.original_name, year := y, plot := d.overview,
      tagline := d.tagline,
      runtime := match d.episode_run_time with | [] => none | r :: _ => some r,
      release_date := d.first_air_date, rating := d.vote_average,
      rating_count := d.vote_count, genres := d.genres,
      countries := d.origin_country, languages := d.languages,
      studios := d.production_companies,
      networks := d.networks.filterMap (fun n =>
        match n with
        | some s => if s = "" then none else some s
        | none => none),
      network := match d.networks with | [] => "" | n :: _ => n.getD "",
      status := d.status.getD "", homepage := d.homepage.getD "",
      cast := [], directors := [], writers := [], seasons := d.seasons,
      episodes := [], title_zh := zh1.1, plot_zh := zh1.2,
      keywords := none, keywords_en := none, keywords_zh := none,
      genres_zh := none, omdb_id := none }

/-- `DataNormalizer.normalize_tmdb_movie` (normalize.py 7-50). -/
def normalize_tmdb_movie (d : MoviePayload) : Except String NRecord :=
  match yearFromDate d.release_date with
  | .error e => .error e
  | .ok y =>
    let title := d.title.getD ""
    let overview := d.overview.getD ""
    let zh0 : Option String × Option String :=
      (if containsCJK title then some title else none,
       if containsCJK overview then some overview else none)
    let zh1 : Option String × Option String :=
      match d.translations with
      | some ts =>
        match ts.find? (fun t => t.iso_639_1 = "zh") with
        | some t => (t.title, t.overview)
        | none => zh0
      | none => zh0
    .ok {
      media_type := "movie", tmdb_id := d.id, title := title,
      original_title := d.original_title, year := y, plot := d.overview,
      tagline := d.tagline, runtime := d.runtime,
      release_date := d.release_date, rating := d.vote_average,
      rating_count := d.vote_count, genres := d.genres,
      countries := d.production_countries, languages := d.spoken_languages,
      studios := d.production_companies, networks := [], network := "",
      status := "", homepage := "", cast := [], directors := [],
      writers := [], seasons := [], episodes := [],
      title_zh := zh1.1, plot_zh := zh1.2, keywords := none,
      keywords_en := none, keywords_zh := none, genres_zh := none,
      omdb_id := none }

def isDirectorCrew (m : CrewMember) : Bool :=
  m.job.getD "" = "Director" || m.department.getD "" = "Directing"

def isWriterCrewTop (m : CrewMember) : Bool :=
  ["Writer", "Screenplay", "Story", "Series Composition"].contains
    (m.job.getD "") || m.department.getD "" = "Writing"

def isWriterCrewEp (m : CrewMember) : Bool :=
  ["Writer", "Screenplay", "Story"].contains (m.job.getD "") ||
  m.department.getD "" = "Writing"

/-- `DataNormalizer.enrich_with_credits` (normalize.py 111-156): cast capped
at 10, directors/writers gathered with `elif` precedence from the top-level
crew and, for TV records with episodes, from each episode's crew. -/
def enrich_with_credits (r : NRecord) (c : CreditsData) : NRecord :=
  let cast := (c.cast.take 10).map (fun p =>
    { name_en := p.name.getD "", name_zh := none,
      role := p.character.getD "", original_name := p.original_name.getD "",
      profile_path := p.profile_path.getD "",
      popularity := p.popularity : CastMember })
  let epCrew : List CrewMember :=
    if r.media_type = "tv" && !r.episodes.isEmpty then
      (r.episodes.map SourceEpisode.crew).flatten
    else []
  let directors :=
    (c.crew.filter isDirectorCrew).map (fun m => m.name.getD "") ++
    (epCrew.filter isDirectorCrew).map (fun m => m.name.getD "")
  let writers :=
    (c.crew.filter (fun m => !isDirectorCrew m && isWriterCrewTop m)).map
      (fun m => m.name.getD "") ++
    (epCrew.filter (fun m => !isDirectorCrew m && isWriterCrewEp m)).map
      (fun m => m.name.getD "")
  { r with cast := cast, directors := directors.dedup,
           writers := writers.dedup }

def optListTruthy (o : Option (List String)) : Bool :=
  match o with
  | some l => !l.isEmpty
  | none => false

def optStrTruthy (o : Option String) : Bool :=
  match o with
  | some s => s ≠ ""
  | none => false

/-- `DataNormalizer.enrich_with_keywords` (normalize.py 158-176). -/
def enrich_with_keywords (r : NRecord) (k : KeywordsData) (translate : Bool) :
    NRecord :=
  let kws := if !k.keywords.isEmpty then k.keywords else k.results
  if kws.isEmpty then r
  else
    let names := kws.filterMap (fun kw =>
      match kw.name with
      | some n => if n = "" then none else some n
      | none => none)
    if translate && optListTruthy r.keywords_zh then
      { r with keywords_en := some names, keywords := r.keywords_zh }
    else
      { r with keywords_en := some names, keywords := some names }

structure OmdbPayload where
  imdbID : Option String
  Actors : Option String
  Plot : Option String
  Genre : Option String
  Director : Option String
  Writer : Option String
deriving Repr

/-- `s.split(",")` followed by `.strip()` on each part. -/
def pySplitStrip (s : String) : List String :=
  (pySplit ',' s.data).map (fun part => pyStripS ⟨part⟩)

def omdbSetId (r : NRecord) (o : OmdbPayload) : NRecord :=
  match o.imdbID with
  | some i => { r with omdb_id := some i }
  | none => r

/-- Positional (index-aligned) overlay of OMDB actor names onto the cast. -/
def omdbSetActors (r : NRecord) (o : OmdbPayload) : NRecord :=
  match o.Actors with
  | some a =>
    if !r.cast.isEmpty then
      let names := pySplitStrip a
      { r with cast := r.cast.mapIdx (fun i m =>
          match names.get? i with
          | some n => { m with name_zh := some n }
          | none => m) }
    else r
  | none => r

def omdbSetPlot (r : NRecord) (o : OmdbPayload) : NRecord :=
  if o.Plot.isSome && !optStrTruthy r.plot_zh then { r with plot_zh := o.Plot }
  else r

def omdbSetGenre (r : NRecord) (o : OmdbPayload) : NRecord :=
  match o.Genre with
  | some g => { r with genres_zh := some (pySplitStrip g) }
  | none => r

def omdbSetDirectors (r : NRecord) (o : OmdbPayload) : NRecord :=
  match o.Director with
  | some dd => { r with directors := (r.directors ++ pySplitStrip dd).dedup }
  | none => r

def omdbSetWriters (r : NRecord) (o : OmdbPayload) : NRecord :=
  match o.Writer with
  | some w => { r with writers := (r.writers ++ pySplitStrip w).dedup }
  | none => r

/-- `DataNormalizer.enrich_with_omdb` (normalize.py 178-205). -/
def enrich_with_omdb (r : NRecord) (o : OmdbPayload) : NRecord :=
  omdbSetWriters
    (omdbSetDirectors
      (omdbSetGenre (omdbSetPlot (omdbSetActors (omdbSetId r o) o) o) o) o) o

/-- The tag-translation tail of `normalize_node` (graph.py 528-538): when
enabled and keywords are present, `keywords_zh` is set to the translated
list. -/
def translate_tags_stage (r : NRecord) (enabled : Bool)
    (tagOracle : List String → List String) : NRecord :=
  if enabled && optListTruthy r.keywords then
    { r with keywords_zh := some (tagOracle (r.keywords.getD [])) }
  else r

/-! ### C4: the year derivation is not total -/

/-- A movie payload with a present but malformed release date. -/
def egBadMovie : MoviePayload :=
  { id := none, title := some "X", original_title := none, overview := none,
    tagline := none, release_date := some "N/A", runtime := none,
    vote_average := none, vote_count := none, genres := [],
    production_countries := [], spoken_languages := [],
    production_companies := [], imdb_id := none, translations := none }

def egMovieNoDate : MoviePayload := { egBadMovie with release_date := none }

def egMovieDated : MoviePayload :=
  { egBadMovie with release_date := some "2023-05-01" }

/-- C4 (counterexample): `normalize_tmdb_movie` raises on a present but
non-numeric release date (`int("N/A")` raises `ValueError`), so the claimed
"never raises on a malformed release-date string" is false — the normalizer
is not total in the release-date input. -/
theorem C4_normalize_year_counterexample :
    (normalize_tmdb_movie egBadMovie).isOk = false := by decide

/-- C4 (amended claim theorem): both normalizers derive `year` from the
first four characters of the release-date string, default it to 0 exactly
when the date is absent or the empty string, and raise (return an error)
when a date is present whose first four characters are not a valid integer
literal. -/
theorem C4_normalize_year_amended :
    (∀ d : MoviePayload, d.release_date = none →
        (normalize_tmdb_movie d).map NRecord.year = .ok 0)
    ∧ (∀ d : MoviePayload, d.release_date = some "" →
        (normalize_tmdb_movie d).map NRecord.year = .ok 0)
    ∧ (∀ (d : MoviePayload) (ds : String) (y : Int),
        d.release_date = some ds → ds ≠ "" →
        pyInt? (ds.data.take 4) = some y →
        (normalize_tmdb_movie d).map NRecord.year = .ok y)
    ∧ (∀ (d : MoviePayload) (ds : String),
        d.release_date = some ds → ds ≠ "" →
        pyInt? (ds.data.take 4) = none →
        (normalize_tmdb_movie d).isOk = false)
    ∧ (∀ d : TVPayload, d.first_air_date = none →
        (normalize_tmdb_tv d).map NRecord.year = .ok 0)
    ∧ (∀ d : TVPayload, d.first_air_date = some "" →
        (normalize_tmdb_tv d).map NRecord.year = .ok 0)
    ∧ (∀ (d : TVPayload) (ds : String) (y : Int),
        d.first_air_date = some ds → ds ≠ "" →
        pyInt? (ds.data.take 4) = some y →
        (normalize_tmdb_tv d).map NRecord.year = .ok y)
    ∧ (∀ (d : TVPayload) (ds : String),
        d.first_air_date = some ds → ds ≠ "" →
        pyInt? (ds.data.take 4) = none →
        (normalize_tmdb_tv d).isOk = false) := by
  refine ⟨?_, ?_, ?_, ?_, ?_, ?_, ?_, ?_⟩
  · intro d h
    unfold normalize_tmdb_movie yearFromDate
    rw [h]
    rfl
  · intro d h
    unfold normalize_tmdb_movie yearFromDate
    rw [h]
    rfl
  · intro d ds y h hne hp
    unfold normalize_tmdb_movie yearFromDate
    rw [h]
    dsimp only
    rw [if_neg hne, hp]
    rfl
  · intro d ds h hne hp
    unfold normalize_tmdb_movie yearFromDate
    rw [h]
    dsimp only
    rw [if_neg hne, hp]
    rfl
  · intro d h
    unfold normalize_tmdb_tv yearFromDate
    rw [h]
    rfl
  · intro d h
    unfold normalize_tmdb_tv yearFromDate
    rw [h]
    rfl
  · intro d ds y h hne hp
    unfold normalize_tmdb_tv yearFromDate
    rw [h]
    dsimp only
    rw [if_neg hne, hp]
    rfl
  · intro d ds h hne hp
    unfold normalize_tmdb_tv yearFromDate
    rw [h]
    dsimp only
    rw [if_neg hne, hp]
    rfl

/-- Witness for C4's amended theorem at concrete payloads. -/
theorem C4_normalize_year_amended_witness :
    (normalize_tmdb_movie egMovieNoDate).map NRecord.year = .ok 0
    ∧ (normalize_tmdb_movie egMovieDated).map NRecord.year = .ok 2023
    ∧ (normalize_tmdb_movie egBadMovie).isOk = false :=
  ⟨C4_normalize_year_amended.1 egMovieNoDate rfl,
   C4_normalize_year_amended.2.2.1 egMovieDated "2023-05-01" 2023 rfl
     (by decide) (by decide),
   C4_normalize_year_amended.2.2.2.1 egBadMovie "N/A" rfl
     (by decide) (by decide)⟩

/-! ### C5: merge stages never empty a populated field -/

/-- A populated optional string: present and non-empty. -/
def popOS (o : Option String) : Prop := ∃ s, o = some s ∧ s ≠ ""

/-- A populated optional list: present and non-empty. -/
def popOL (o : Option (List String)) : Prop := ∃ l, o = some l ∧ l ≠ []

/-- Field-wise populatedness preservation between two canonical records:
whenever a field of `a` holds a non-empty/non-null value, the same field of
`b` does too. -/
structure FieldsPreserved (a b : NRecord) : Prop where
  media_type : a.media_type ≠ "" → b.media_type ≠ ""
  tmdb_id : a.tmdb_id.isSome → b.tmdb_id.isSome
  title : a.title ≠ "" → b.title ≠ ""
  original_title : popOS a.original_title → popOS b.original_title
  year : a.year ≠ 0 → b.year ≠ 0
  plot : popOS a.plot → popOS b.plot
  tagline : popOS a.tagline → popOS b.tagline
  runtime : a.runtime.isSome → b.runtime.isSome
  release_date : popOS a.release_date → popOS b.release_date
  rating : popOS a.rating → popOS b.rating
  rating_count : popOS a.rating_count → popOS b.rating_count
  genres : a.genres ≠ [] → b.genres ≠ []
  countries : a.countries ≠ [] → b.countries ≠ []
  languages : a.languages ≠ [] → b.languages ≠ []
  studios : a.studios ≠ [] → b.studios ≠ []
  networks : a.networks ≠ [] → b.networks ≠ []
  network : a.network ≠ "" → b.network ≠ ""
  status : a.status ≠ "" → b.status ≠ ""
  homepage : a.homepage ≠ "" → b.homepage ≠ ""
  cast : a.cast ≠ [] → b.cast ≠ []
  directors : a.directors ≠ [] → b.directors ≠ []
  writers : a.writers ≠ [] → b.writers ≠ []
  seasons : a.seasons ≠ [] → b.seasons ≠ []
  episodes : a.episodes ≠ [] → b.episodes ≠ []
  title_zh : popOS a.title_zh → popOS b.title_zh
  plot_zh : popOS a.plot_zh → popOS b.plot_zh
  keywords : popOL a.keywords → popOL b.keywords
  keywords_en : popOL a.keywords_en → popOL b.keywords_en
  keywords_zh : popOL a.keywords_zh → popOL b.keywords_zh
  genres_zh : popOL a.genres_zh → popOL b.genres_zh
  omdb_id : popOS a.omdb_id → popOS b.omdb_id

theorem FieldsPreserved.refl (r : NRecord) : FieldsPreserved r r :=
  ⟨id, id, id, id, id, id, id, id, id, id, id, id, id, id, id, id, id, id,
   id, id, id, id, id, id, id, id, id, id, id, id, id⟩

/-- The episodes override of `normalize_node` (graph.py 514-516). -/
def withEpisodes (r : NRecord) (eps : List SourceEpisode) : NRecord :=
  if r.media_type = "tv" ∧ eps ≠ [] then { r with episodes := eps } else r

theorem withEpisodes_preserves (r : NRecord) (eps : List SourceEpisode) :
    FieldsPreserved r (withEpisodes r eps) := by
  unfold withEpisodes
  split
  · rename_i hcond
    exact ⟨id, id, id, id, id, id, id, id, id, id, id, id, id, id, id, id,
      id, id, id, id, id, id, id, fun _ => hcond.2, id, id, id, id, id, id, id⟩
  · exact FieldsPreserved.refl r

theorem credits_preserves (r : NRecord) (c : CreditsData)
    (hc : r.cast = []) (hd : r.directors = []) (hw : r.writers = []) :
    FieldsPreserved r (enrich_with_credits r c) :=
  ⟨id, id, id, id, id, id, id, id, id, id, id, id, id, id, id, id, id, id,
   id, fun h => absurd hc h, fun h => absurd hd h, fun h => absurd hw h,
   id, id, id, id, id, id, id, id, id⟩

theorem keywords_preserves (r : NRecord) (k : KeywordsData) (t : Bool)
    (h1 : r.keywords = none) (h2 : r.keywords_en = none) :
    FieldsPreserved r (enrich_with_keywords r k t) := by
  have hkw : popOL r.keywords → False := by
    rintro ⟨l, hl, -⟩
    rw [h1] at hl
    cases hl
  have hke : popOL r.keywords_en → False := by
    rintro ⟨l, hl, -⟩
    rw [h2] at hl
    cases hl
  unfold enrich_with_keywords
  dsimp only
  split <;> split <;> (try split) <;>
    first
      | exact FieldsPreserved.refl r
      | exact ⟨id, id, id, id, id, id, id, id, id, id, id, id, id, id, id,
          id, id, id, id, id, id, id, id, id, id, id, fun h => absurd h hkw,
          fun h => absurd h hke, id, id, id⟩

theorem omdbSetId_preserves (r : NRecord) (o : OmdbPayload)
    (h : r.omdb_id = none) : FieldsPreserved r (omdbSetId r o) := by
  unfold omdbSetId
  cases o.imdbID with
  | none => exact FieldsPreserved.refl r
  | some i =>
    have ho : popOS r.omdb_id → False := by
      rintro ⟨s, hs, -⟩
      rw [h] at hs
      cases hs
    exact ⟨id, id, id, id, id, id, id, id, id, id, id, id, id, id, id, id,
      id, id, id, id, id, id, id, id, id, id, id, id, id, id,
      fun hp => absurd hp ho⟩

theorem omdbSetActors_preserves (r : NRecord) (o : OmdbPayload) :
    FieldsPreserved r (omdbSetActors r o) := by
  unfold omdbSetActors
  cases o.Actors with
  | none => exact FieldsPreserved.refl r
  | some a =>
    dsimp only
    split
    · refine ⟨id, id, id, id, id, id, id, id, id, id, id, id, id, id, id,
        id, id, id, id, ?_, id, id, id, id, id, id, id, id, id, id, id⟩
      intro h hnil
      apply h
      have := congrArg List.length hnil
      rw [List.length_mapIdx] at this
      exact List.eq_nil_of_length_eq_zero this
    · exact FieldsPreserved.refl r

theorem omdbSetPlot_preserves (r : NRecord) (o : OmdbPayload) :
    FieldsPreserved r (omdbSetPlot r o) := by
  unfold omdbSetPlot
  split
  · rename_i hcond
    refine ⟨id, id, id, id, id, id, id, id, id, id, id, id, id, id, id, id,
      id, id, id, id, id, id, id, id, id, ?_, id, id, id, id, id⟩
    rintro ⟨s, hs, hne⟩
    exfalso
    simp only [Bool.and_eq_true, Bool.not_eq_true'] at hcond
    rw [optStrTruthy.eq_def, hs] at hcond
    simp [hne] at hcond
  · exact FieldsPreserved.refl r

theorem pySplitStrip_ne_nil (s : String) : pySplitStrip s ≠ [] := by
  unfold pySplitStrip
  intro h
  rw [List.map_eq_nil_iff] at h
  exact pySplit_ne_nil ',' s.data h

theorem omdbSetGenre_preserves (r : NRecord) (o : OmdbPayload) :
    FieldsPreserved r (omdbSetGenre r o) := by
  unfold omdbSetGenre
  cases o.Genre with
  | none => exact FieldsPreserved.refl r
  | some g =>
    exact ⟨id, id, id, id, id, id, id, id, id, id, id, id, id, id, id, id,
      id, id, id, id, id, id, id, id, id, id, id, id, id,
      fun _ => ⟨pySplitStrip g, rfl, pySplitStrip_ne_nil g⟩, id⟩

theorem dedup_append_left_ne_nil {l m : List String} (h : l ≠ []) :
    (l ++ m).dedup ≠ [] := by
  obtain ⟨x, hx⟩ := List.exists_mem_of_ne_nil l h
  have : x ∈ (l ++ m).dedup := List.mem_dedup.mpr (List.mem_append.mpr (Or.inl hx))
  exact List.ne_nil_of_mem this

theorem omdbSetDirectors_preserves (r : NRecord) (o : OmdbPayload) :
    FieldsPreserved r (omdbSetDirectors r o) := by
  unfold omdbSetDirectors
  cases o.Director with
  | none => exact FieldsPreserved.refl r
  | some dd =>
    exact ⟨id, id, id, id, id, id, id, id, id, id, id, id, id, id, id, id,
      id, id, id, id, fun h => dedup_append_left_ne_nil h, id, id, id, id,
      id, id, id, id, id, id⟩

theorem omdbSetWriters_preserves (r : NRecord) (o : OmdbPayload) :
    FieldsPreserved r (omdbSetWriters r o) := by
  unfold omdbSetWriters
  cases o.Writer with
  | none => exact FieldsPreserved.refl r
  | some w =>
    exact ⟨id, id, id, id, id, id, id, id, id, id, id, id, id, id, id, id,
      id, id, id, id, id, fun h => dedup_append_left_ne_nil h, id, id, id,
      id, id, id, id, id, id⟩

theorem FieldsPreserved.trans {a b c : NRecord}
    (h1 : FieldsPreserved a b) (h2 : FieldsPreserved b c) :
    FieldsPreserved a c :=
  ⟨fun h => h2.media_type (h1.media_type h),
   fun h => h2.tmdb_id (h1.tmdb_id h),
   fun h => h2.title (h1.title h),
   fun h => h2.original_title (h1.original_title h),
   fun h => h2.year (h1.year h),
   fun h => h2.plot (h1.plot h),
   fun h => h2.tagline (h1.tagline h),
   fun h => h2.runtime (h1.runtime h),
   fun h => h2.release_date (h1.release_date h),
   fun h => h2.rating (h1.rating h),
   fun h => h2.rating_count (h1.rating_count h),
   fun h => h2.genres (h1.genres h),
   fun h => h2.countries (h1.countries h),
   fun h => h2.languages (h1.languages h),
   fun h => h2.studios (h1.studios h),
   fun h => h2.networks (h1.networks h),
   fun h => h2.network (h1.network h),
   fun h => h2.status (h1.status h),
   fun h => h2.homepage (h1.homepage h),
   fun h => h2.cast (h1.cast h),
   fun h => h2.directors (h1.directors h),
   fun h => h2.writers (h1.writers h),
   fun h => h2.seasons (h1.seasons h),
   fun h => h2.episodes (h1.episodes h),
   fun h => h2.title_zh (h1.title_zh h),
   fun h => h2.plot_zh (h1.plot_zh h),
   fun h => h2.keywords (h1.keywords h),
   fun h => h2.keywords_en (h1.keywords_en h),
   fun h => h2.keywords_zh (h1.keywords_zh h),
   fun h => h2.genres_zh (h1.genres_zh h),
   fun h => h2.omdb_id (h1.omdb_id h)⟩

theorem omdb_preserves (r : NRecord) (o : OmdbPayload)
    (h : r.omdb_id = none) : FieldsPreserved r (enrich_with_omdb r o) := by
  unfold enrich_with_omdb
  exact ((((omdbSetId_preserves r o h).trans
    (omdbSetActors_preserves _ o)).trans
    (omdbSetPlot_preserves _ o)).trans
    (omdbSetGenre_preserves _ o)).trans
    ((omdbSetDirectors_preserves _ o).trans (omdbSetWriters_preserves _ o))

theorem tags_preserves (r : NRecord) (enabled : Bool)
    (tagOracle : List String → List String) (h : r.keywords_zh = none) :
    FieldsPreserved r (translate_tags_stage r enabled tagOracle) := by
  unfold translate_tags_stage
  split
  · have hkz : popOL r.keywords_zh → False := by
      rintro ⟨l, hl, -⟩
      rw [h] at hl
      cases hl
    exact ⟨id, id, id, id, id, id, id, id, id, id, id, id, id, id, id, id,
      id, id, id, id, id, id, id, id, id, id, id, id,
      fun hp => absurd hp hkz, id, id⟩
  · exact FieldsPreserved.refl r

theorem normalize_tv_base_fields {d : TVPayload} {r : NRecord}
    (h : normalize_tmdb_tv d = .ok r) :
    r.cast = [] ∧ r.directors = [] ∧ r.writers = [] ∧ r.keywords = none ∧
    r.keywords_en = none ∧ r.keywords_zh = none ∧ r.omdb_id = none := by
  unfold normalize_tmdb_tv at h
  cases hy : yearFromDate d.first_air_date with
  | error e => rw [hy] at h; cases h
  | ok y =>
    rw [hy] at h
    dsimp only at h
    injection h with h'
    subst h'
    exact ⟨rfl, rfl, rfl, rfl, rfl, rfl, rfl⟩

theorem enrich_with_keywords_omdb_id (r : NRecord) (k : KeywordsData)
    (t : Bool) : (enrich_with_keywords r k t).omdb_id = r.omdb_id := by
  unfold enrich_with_keywords
  dsimp only
  split <;> split <;> (try split) <;> rfl

theorem enrich_with_keywords_keywords_zh (r : NRecord) (k : KeywordsData)
    (t : Bool) : (enrich_with_keywords r k t).keywords_zh = r.keywords_zh := by
  unfold enrich_with_keywords
  dsimp only
  split <;> split <;> (try split) <;> rfl

theorem omdbSetId_keywords_zh (r : NRecord) (o : OmdbPayload) :
    (omdbSetId r o).keywords_zh = r.keywords_zh := by
  unfold omdbSetId
  cases o.imdbID <;> rfl

theorem omdbSetActors_keywords_zh (r : NRecord) (o : OmdbPayload) :
    (omdbSetActors r o).keywords_zh = r.keywords_zh := by
  unfold omdbSetActors
  cases o.Actors with
  | none => rfl
  | some a =>
    dsimp only
    split <;> rfl

theorem omdbSetPlot_keywords_zh (r : NRecord) (o : OmdbPayload) :
    (omdbSetPlot r o).keywords_zh = r.keywords_zh := by
  unfold omdbSetPlot
  split <;> rfl

theorem omdbSetGenre_keywords_zh (r : NRecord) (o : OmdbPayload) :
    (omdbSetGenre r o).keywords_zh = r.keywords_zh := by
  unfold omdbSetGenre
  cases o.Genre <;> rfl

theorem omdbSetDirectors_keywords_zh (r : NRecord) (o : OmdbPayload) :
    (omdbSetDirectors r o).keywords_zh = r.keywords_zh := by
  unfold omdbSetDirectors
  cases o.Director <;> rfl

theorem omdbSetWriters_keywords_zh (r : NRecord) (o : OmdbPayload) :
    (omdbSetWriters r o).keywords_zh = r.keywords_zh := by
  unfold omdbSetWriters
  cases o.Writer <;> rfl

theorem enrich_with_omdb_keywords_zh (r : NRecord) (o : OmdbPayload) :
    (enrich_with_omdb r o).keywords_zh = r.keywords_zh := by
  unfold enrich_with_omdb
  rw [omdbSetWriters_keywords_zh, omdbSetDirectors_keywords_zh,
    omdbSetGenre_keywords_zh, omdbSetPlot_keywords_zh,
    omdbSetActors_keywords_zh, omdbSetId_keywords_zh]

/-- C5 (claim theorem): along the merge sequence of `normalize_node`
(base normalize → episodes override → credits enrichment → keywords
enrichment → OMDB enrichment → tag translation), with arbitrary payloads at
every stage, each stage preserves the populatedness of every top-level
field of the canonical record: no stage replaces a populated field with an
empty or null value. -/
theorem C5_merge_stage_monotonic (d : TVPayload) (eps : List SourceEpisode)
    (c : CreditsData) (k : KeywordsData) (translate tagsEnabled : Bool)
    (o : OmdbPayload) (tagOracle : List String → List String) (r0 : NRecord)
    (hn : normalize_tmdb_tv d = .ok r0) :
    FieldsPreserved r0 (withEpisodes r0 eps)
    ∧ FieldsPreserved (withEpisodes r0 eps)
        (enrich_with_credits (withEpisodes r0 eps) c)
    ∧ FieldsPreserved (enrich_with_credits (withEpisodes r0 eps) c)
        (enrich_with_keywords (enrich_with_credits (withEpisodes r0 eps) c)
          k translate)
    ∧ FieldsPreserved
        (enrich_with_keywords (enrich_with_credits (withEpisodes r0 eps) c)
          k translate)
        (enrich_with_omdb
          (enrich_with_keywords (enrich_with_credits (withEpisodes r0 eps) c)
            k translate) o)
    ∧ FieldsPreserved
        (enrich_with_omdb
          (enrich_with_keywords (enrich_with_credits (withEpisodes r0 eps) c)
            k translate) o)
        (translate_tags_stage
          (enrich_with_omdb
            (enrich_with_keywords
              (enrich_with_credits (withEpisodes r0 eps) c) k translate) o)
          tagsEnabled tagOracle) := by
  obtain ⟨hc, hd, hw, hk, hke, hkz, ho⟩ := normalize_tv_base_fields hn
  have w_c : (withEpisodes r0 eps).cast = [] := by
    unfold withEpisodes
    split <;> exact hc
  have w_d : (withEpisodes r0 eps).directors = [] := by
    unfold withEpisodes
    split <;> exact hd
  have w_w : (withEpisodes r0 eps).writers = [] := by
    unfold withEpisodes
    split <;> exact hw
  have w_k : (withEpisodes r0 eps).keywords = none := by
    unfold withEpisodes
    split <;> exact hk
  have w_ke : (withEpisodes r0 eps).keywords_en = none := by
    unfold withEpisodes
    split <;> exact hke
  have w_kz : (withEpisodes r0 eps).keywords_zh = none := by
    unfold withEpisodes
    split <;> exact hkz
  have w_o : (withEpisodes r0 eps).omdb_id = none := by
    unfold withEpisodes
    split <;> exact ho
  have cr_k : (enrich_with_credits (withEpisodes r0 eps) c).keywords = none :=
    w_k
  have cr_ke :
      (enrich_with_credits (withEpisodes r0 eps) c).keywords_en = none := w_ke
  have cr_kz :
      (enrich_with_credits (withEpisodes r0 eps) c).keywords_zh = none := w_kz
  have cr_o : (enrich_with_credits (withEpisodes r0 eps) c).omdb_id = none :=
    w_o
  have kw_o : (enrich_with_keywords
      (enrich_with_credits (withEpisodes r0 eps) c) k translate).omdb_id =
      none := by
    rw [enrich_with_keywords_omdb_id]
    exact cr_o
  have kw_kz : (enrich_with_keywords
      (enrich_with_credits (withEpisodes r0 eps) c) k translate).keywords_zh =
      none := by
    rw [enrich_with_keywords_keywords_zh]
    exact cr_kz
  have om_kz : (enrich_with_omdb
      (enrich_with_keywords (enrich_with_credits (withEpisodes r0 eps) c)
        k translate) o).keywords_zh = none := by
    rw [enrich_with_omdb_keywords_zh]
    exact kw_kz
  exact ⟨withEpisodes_preserves r0 eps,
    credits_preserves _ c w_c w_d w_w,
    keywords_preserves _ k translate cr_k cr_ke,
    omdb_preserves _ o kw_o,
    tags_preserves _ tagsEnabled tagOracle om_kz⟩

/-- Example inputs for the C5 witness. -/
def egTvPayload : TVPayload :=
  { id := some 5, name := some "A", original_name := none, overview := none,
    tagline := none, first_air_date := some "2020-01-01",
    episode_run_time := [], vote_average := none, vote_count := none,
    genres := [], origin_country := [], languages := [],
    production_companies := [], networks := [], status := none,
    homepage := none, seasons := [], imdb_id := none, translations := none }

def egNormRec : NRecord := ((normalize_tmdb_tv egTvPayload).toOption).getD default

def egOmdb : OmdbPayload := ⟨none, none, none, none, none, none⟩

def egCreditsData : CreditsData := ⟨[], []⟩

def egKwData : KeywordsData := ⟨[], []⟩

/-- Witness for C5 at a concrete normalized record. -/
theorem C5_merge_stage_monotonic_witness :
    FieldsPreserved egNormRec (withEpisodes egNormRec []) :=
  (C5_merge_stage_monotonic egTvPayload [] egCreditsData egKwData false false
    egOmdb id egNormRec (by rfl)).1

/-! ## `MediaMetadataGraph` (src/app/graph.py)

The LangGraph workflow of `create_graph` is linearized along a topological
order of its edges: `parse_input → search → select_candidate → fetch →
normalize → translate → omdb_enrich → map_to_nfo → validate_nfo →
render_xml → write_output` (in the real graph `map_to_nfo` hangs off
`normalize` on a parallel branch; `omdb_enrich` runs after `translate`,
hence after `normalize`, in every topological order).  External collaborator
calls are oracles in `PipeEnv`; the HTTP adapters raise on failure after
retries, so search oracles return a result list and detail fetches return
`Except`.  The artwork nodes only download images and are omitted. -/

inductive SearchCall
  | tv
  | movie
deriving DecidableEq, Repr

structure PipeInput where
  media_type : Option String
  media_type_forced : Bool
  query : String
  tmdb_id : Option Int
  omdb_id : Option String
  translate : Bool
  translate_tags : Bool
  language : Option String
  aid_search : Bool
deriving Repr

inductive MainData
  | tv (p : TVPayload)
  | movie (p : MoviePayload)
deriving Repr

structure Candidate where
  id : Int
  media_type : String
deriving DecidableEq, Repr

/-- The slice of the NFO dictionary produced by `DirectMapper` that the
later stages read (`validate_nfo` checks `title` and `year`). -/
structure NfoSlice where
  title : String
  originaltitle : String
  year : Int
  premiered : String
  plot : String
  tagline : String
  genre : List String
  credits : List String
  director : List String
  tags : List String
  network : String
  status : String
  validated : Bool
  xml : Option String
deriving DecidableEq, Repr

structure PipeEnv where
  tvSearch : String → List Int
  movieSearch : String → List Int
  findMovieResults : String → List Int
  findTvResults : String → List Int
  tvDetails : Int → Except String TVPayload
  movieDetails : Int → Except String MoviePayload
  creditsFor : Int → CreditsData
  keywordsFor : Int → KeywordsData
  seasonsFor : Int → List Nat
  episodesFor : Int → List SourceEpisode
  googleId : Option Int
  tagOracle : List String → List String
  translateMeta : NRecord → NRecord
  translateEp : SourceEpisode → SourceEpisode
  renderXml : NfoSlice → Option Int → String

/-- The slice of `source_data` the modelled stages read and write. -/
structure SDModel where
  main : Option MainData
  credits : Option CreditsData
  keywords : Option KeywordsData
  seasons : Option (List Nat)
  episodes : Option (List SourceEpisode)
  translated : Option NRecord
  translated_episodes : Option (List SourceEpisode)
  omdb : Option OmdbPayload
deriving Repr

/-- Python `a or b` for an optional left operand. -/
def pyOrStr (a : Option String) (b : String) : String :=
  match a with
  | some s => if s = "" then b else s
  | none => b

/-- `DirectMapper.map_to_tvshow_nfo` (llm_mapper.py 33-60), restricted to
the modelled NFO fields. -/
def map_to_tvshow_nfo (r : NRecord) : NfoSlice :=
  { title := pyOrStr r.title_zh r.title,
    originaltitle := r.original_title.getD "",
    year := r.year,
    premiered := r.release_date.getD "",
    plot := pyOrStr r.plot_zh (r.plot.getD ""),
    tagline := r.tagline.getD "",
    genre := r.genres_zh.getD r.genres,
    credits := r.writers,
    director := r.directors,
    tags := r.keywords_zh.getD (r.keywords.getD []),
    network := r.network,
    status := r.status,
    validated := false,
    xml := none }

/-- `DirectMapper.map_to_movie_nfo` (llm_mapper.py 9-31); `MovieNfo` has no
network/status fields, carried here as their defaults. -/
def map_to_movie_nfo (r : NRecord) : NfoSlice :=
  { title := pyOrStr r.title_zh r.title,
    originaltitle := r.original_title.getD "",
    year := r.year,
    premiered := r.release_date.getD "",
    plot := pyOrStr r.plot_zh (r.plot.getD ""),
    tagline := r.tagline.getD "",
    genre := r.genres_zh.getD r.genres,
    credits := r.writers,
    director := r.directors,
    tags := r.keywords_zh.getD (r.keywords.getD []),
    network := "",
    status := "",
    validated := false,
    xml := none }

structure SearchOut where
  results : List Int
  performed : Option String
  skip : Bool
  calls : List SearchCall
deriving DecidableEq, Repr

/-- `MediaMetadataGraph.search_node` (graph.py 157-216), recording which
TMDB search endpoints were called and in which order. -/
def search_node (inp : PipeInput) (env : PipeEnv) : SearchOut :=
  if inp.query = "" ∧ (inp.tmdb_id.isSome ∨ inp.omdb_id.isSome) then
    { results := [], performed := none, skip := true, calls := [] }
  else if !inp.media_type_forced then
    let tvRes := env.tvSearch inp.query
    if tvRes ≠ [] then
      { results := tvRes, performed := some "tv", skip := false,
        calls := [.tv] }
    else
      let mv := env.movieSearch inp.query
      if mv ≠ [] then
        { results := mv, performed := some "movie", skip := false,
          calls := [.tv, .movie] }
      else
        { results := [], performed := some "", skip := false,
          calls := [.tv, .movie] }
  else if inp.media_type.getD "tv" = "movie" then
    { results := env.movieSearch inp.query, performed := some "movie",
      skip := false, calls := [.movie] }
  else
    { results := env.tvSearch inp.query, performed := some "tv",
      skip := false, calls := [.tv] }

/-- `MediaMetadataGraph.select_candidate_node` (graph.py 218-300). -/
def select_candidate (inp : PipeInput) (env : PipeEnv) (so : SearchOut) :
    Except String Candidate :=
  if so.skip then
    match inp.tmdb_id with
    | some tid => .ok ⟨tid, inp.media_type.getD "tv"⟩
    | none =>
      match inp.omdb_id with
      | some oid =>
        let mt := inp.media_type.getD "tv"
        if mt = "movie" then
          match env.findMovieResults oid with
          | r :: _ => .ok ⟨r, "movie"⟩
          | [] => .error "No TMDB ID found for OMDB ID"
        else if mt = "tv" then
          match env.findTvResults oid with
          | r :: _ => .ok ⟨r, "tv"⟩
          | [] => .error "No TMDB ID found for OMDB ID"
        else .error "No TMDB ID found for OMDB ID"
      | none => .error "Either TMDB ID or OMDB ID is required"
  else
    let cand0 : Option Int :=
      match inp.tmdb_id with
      | some tid => if so.results.contains tid then some tid else none
      | none => so.results.head?
    match cand0 with
    | some cid => .ok ⟨cid, inp.media_type.getD "movie"⟩
    | none =>
      if inp.query ≠ "" ∧ inp.aid_search then
        match env.googleId with
        | some gid => .ok ⟨gid, inp.media_type.getD "movie"⟩
        | none => .error "No suitable candidate found"
      else .error "No suitable candidate found"

/-- `MediaMetadataGraph.fetch_node` (graph.py 302-370).  The per-season /
per-episode detail fetches swallow individual failures; `seasonsFor` /
`episodesFor` return the surviving data. -/
def fetch_node (inp : PipeInput) (env : PipeEnv) (cand : Candidate) :
    Except String SDModel :=
  let mt :=
    if inp.media_type_forced then inp.media_type.getD "tv"
    else cand.media_type
  if mt = "movie" then
    match env.movieDetails cand.id with
    | .error e => .error e
    | .ok p =>
      .ok { main := some (.movie p), credits := some (env.creditsFor cand.id),
            keywords := some (env.keywordsFor cand.id), seasons := none,
            episodes := none, translated := none,
            translated_episodes := none, omdb := none }
  else
    match env.tvDetails cand.id with
    | .error e => .error e
    | .ok p =>
      let seasons := env.seasonsFor cand.id
      let eps := env.episodesFor cand.id
      .ok { main := some (.tv p), credits := some (env.creditsFor cand.id),
            keywords := some (env.keywordsFor cand.id),
            seasons := if seasons.isEmpty then none else some seasons,
            episodes := if eps.isEmpty then none else some eps,
            translated := none, translated_episodes := none, omdb := none }

def emptyTVPayload : TVPayload :=
  { id := none, name := none, original_name := none, overview := none,
    tagline := none, first_air_date := none, episode_run_time := [],
    vote_average := none, vote_count := none, genres := [],
    origin_country := [], languages := [], production_companies := [],
    networks := [], status := none, homepage := none, seasons := [],
    imdb_id := none, translations := none }

def emptyMoviePayload : MoviePayload :=
  { id := none, title := none, original_title := none, overview := none,
    tagline := none, release_date := none, runtime := none,
    vote_average := none, vote_count := none, genres := [],
    production_countries := [], spoken_languages := [],
    production_companies := [], imdb_id := none, translations := none }

def mainTV (sd : SDModel) : TVPayload :=
  match sd.main with
  | some (.tv p) => p
  | _ => emptyTVPayload

def mainMovie (sd : SDModel) : MoviePayload :=
  match sd.main with
  | some (.movie p) => p
  | _ => emptyMoviePayload

def mainImdbId (sd : SDModel) : Option String :=
  match sd.main with
  | some (.tv p) => p.imdb_id
  | some (.movie p) => p.imdb_id
  | none => none

/-- `MediaMetadataGraph.normalize_node` (graph.py 494-564): base normalize,
episodes override, credits, keywords, OMDB (skipped while `source_data` has
no `omdb` key) and tag translation. -/
def normalize_node (inp : PipeInput) (cand : Candidate) (sd : SDModel)
    (env : PipeEnv) : Except String NRecord :=
  let mt := cand.media_type
  let nr0 :=
    if mt = "movie" then normalize_tmdb_movie (mainMovie sd)
    else normalize_tmdb_tv (mainTV sd)
  match nr0 with
  | .error e => .error e
  | .ok r0 =>
    let rE :=
      if mt = "tv" ∧ ¬(sd.episodes.getD []).isEmpty then
        { r0 with episodes := sd.episodes.getD [] }
      else r0
    let r1 := enrich_with_credits rE (sd.credits.getD ⟨[], []⟩)
    let r2 := enrich_with_keywords r1 (sd.keywords.getD ⟨[], []⟩) inp.translate
    let r3 :=
      match sd.omdb with
      | some od => enrich_with_omdb r2 od
      | none => r2
    .ok (translate_tags_stage r3 inp.translate_tags env.tagOracle)

def zhStart (lang : String) : Bool := "zh".data.isPrefixOf lang.data

/-- `MediaMetadataGraph.translate_node` (graph.py 372-466): writes the
`translated` and `translated_episodes` keys of `source_data`; the
per-episode try/except fallback is inside the `translateEp` oracle. -/
def translate_node (inp : PipeInput) (cand : Candidate) (sd : SDModel)
    (nrm : NRecord) (env : PipeEnv) : SDModel :=
  let lang := inp.language.getD "zh-CN"
  let needs :=
    zhStart lang &&
      (!optStrTruthy nrm.title_zh || !optStrTruthy nrm.plot_zh ||
       !optListTruthy nrm.keywords)
  let translated :=
    if inp.translate && needs then env.translateMeta nrm else nrm
  let teps :=
    if cand.media_type = "tv" ∧ ¬(sd.episodes.getD []).isEmpty then
      if inp.translate && zhStart lang then
        (sd.episodes.getD []).map env.translateEp
      else sd.episodes.getD []
    else []
  { sd with translated := some translated,
            translated_episodes := if teps.isEmpty then none else some teps }

/-- `MediaMetadataGraph.omdb_enrich_node` (graph.py 468-492): skipped when
the fetched record has no IMDB id; a failed OMDB fetch is caught and leaves
the state unchanged; on success only `source_data["omdb"]` is written. -/
def omdb_enrich_node (sd : SDModel)
    (omdbFetch : Except String OmdbPayload) : SDModel :=
  match mainImdbId sd with
  | none => sd
  | some _ =>
    match omdbFetch with
    | .ok od => { sd with omdb := some od }
    | .error _ => sd

/-- `MediaMetadataGraph.llm_map_to_nfo_node` (graph.py 630-643). -/
def llm_map_to_nfo (r : NRecord) : NfoSlice :=
  if r.media_type = "movie" then map_to_movie_nfo r else map_to_tvshow_nfo r

/-- `MediaMetadataGraph.validate_nfo_node` (graph.py 645-655): raises when
`title` or `year` is missing or falsy (`0` and `""` are falsy). -/
def validate_nfo (nfo : NfoSlice) : Except String NfoSlice :=
  if nfo.title = "" then .error "Missing required field: title"
  else if nfo.year = 0 then .error "Missing required field: year"
  else .ok { nfo with validated := true }

structure OutputData where
  status : String
  epFiles : List (Nat × Nat)
deriving DecidableEq, Repr

/-- `MediaMetadataGraph.write_output_node` (graph.py 679-897), reduced to
the state it reads: for TV runs with season and episode data it writes one
episode NFO per episode of each positive season. -/
def write_output_node (cand : Candidate) (sd : SDModel) : OutputData :=
  let epsData := sd.translated_episodes.getD (sd.episodes.getD [])
  let epFiles :=
    if cand.media_type ≠ "movie" then
      match sd.seasons with
      | some seasons =>
        if ¬epsData.isEmpty then
          ((seasons.filter (fun sn => 0 < sn)).map (fun sn =>
            (epsData.filter (fun e => e.season_number.getD 0 = sn)).map
              (fun e => (sn, e.episode_number.getD 0)))).flatten
        else []
      | none => []
    else []
  { status := "completed", epFiles := epFiles }

structure FinalState where
  search : SearchOut
  candidate : Candidate
  source_data : SDModel
  normalized : NRecord
  nfo : NfoSlice
  output : OutputData
deriving Repr

/-- The full pipeline, linearized per `create_graph`; errors carry the name
of the raising stage. -/
def runPipeline (inp : PipeInput) (env : PipeEnv)
    (omdbFetch : Except String OmdbPayload) :
    Except (String × String) FinalState :=
  let so := search_node inp env
  match select_candidate inp env so with
  | .error e => .error ("select_candidate", e)
  | .ok cand =>
    match fetch_node inp env cand with
    | .error e => .error ("fetch", e)
    | .ok sd0 =>
      match normalize_node inp cand sd0 env with
      | .error e => .error ("normalize", e)
      | .ok nrm =>
        let sd1 := translate_node inp cand sd0 nrm env
        let sd2 := omdb_enrich_node sd1 omdbFetch
        let nfo0 := llm_map_to_nfo nrm
        match validate_nfo nfo0 with
        | .error e => .error ("validate_nfo", e)
        | .ok nfo1 =>
          let nfo2 := { nfo1 with xml := some (env.renderXml nfo1 nrm.tmdb_id) }
          let out := write_output_node cand sd2
          .ok { search := so, candidate := cand, source_data := sd2,
                normalized := nrm, nfo := nfo2, output := out }

/-! ### C3: TV search first, movie search only on zero TV results -/

/-- C3 (claim theorem): for every name-based resolution (non-empty query)
with no forced media type, `search_node` calls the TV search first and
calls the movie search exactly when the TV search returned zero results;
with at least one TV result no movie search is ever attempted. -/
theorem C3_search_tv_first (inp : PipeInput) (env : PipeEnv)
    (hq : inp.query ≠ "") (hf : inp.media_type_forced = false) :
    (search_node inp env).calls =
      (if env.tvSearch inp.query = [] then [SearchCall.tv, SearchCall.movie]
       else [SearchCall.tv])
    ∧ (env.tvSearch inp.query ≠ [] →
        SearchCall.movie ∉ (search_node inp env).calls)
    ∧ (env.tvSearch inp.query = [] →
        (search_node inp env).calls.count SearchCall.movie = 1)
    ∧ (search_node inp env).calls.head? = some SearchCall.tv := by
  have hskip : ¬(inp.query = "" ∧ (inp.tmdb_id.isSome ∨ inp.omdb_id.isSome)) := by
    rintro ⟨h, -⟩
    exact hq h
  unfold search_node
  rw [if_neg hskip, hf]
  simp only [Bool.not_false, if_true]
  by_cases htv : env.tvSearch inp.query = []
  · rw [if_neg (by simp [htv])]
    split <;>
      exact ⟨by simp [htv], fun h => absurd htv h,
        fun _ => (by decide :
          [SearchCall.tv, SearchCall.movie].count SearchCall.movie = 1),
        rfl⟩
  · rw [if_pos htv]
    exact ⟨by simp [htv],
      fun _ => (by decide : SearchCall.movie ∉ [SearchCall.tv]),
      fun h => absurd h htv, rfl⟩

/-- Example environment: one TV result for every query. -/
def egEnvTv : PipeEnv :=
  { tvSearch := fun _ => [7], movieSearch := fun _ => [3],
    findMovieResults := fun _ => [], findTvResults := fun _ => [],
    tvDetails := fun _ => .error "network", movieDetails := fun _ => .error "network",
    creditsFor := fun _ => ⟨[], []⟩, keywordsFor := fun _ => ⟨[], []⟩,
    seasonsFor := fun _ => [], episodesFor := fun _ => [], googleId := none,
    tagOracle := id, translateMeta := id, translateEp := id,
    renderXml := fun _ _ => "" }

/-- Example environment: zero TV results for every query. -/
def egEnvNoTv : PipeEnv := { egEnvTv with tvSearch := fun _ => [] }

def egSearchInput : PipeInput :=
  { media_type := some "tv", media_type_forced := false, query := "q",
    tmdb_id := none, omdb_id := none, translate := false,
    translate_tags := false, language := none, aid_search := false }

/-- Witness for C3 at concrete environments. -/
theorem C3_search_tv_first_witness :
    SearchCall.movie ∉ (search_node egSearchInput egEnvTv).calls
    ∧ (search_node egSearchInput egEnvNoTv).calls.count SearchCall.movie = 1 :=
  ⟨(C3_search_tv_first egSearchInput egEnvTv (by decide) rfl).2.1 (by decide),
   (C3_search_tv_first egSearchInput egEnvNoTv (by decide) rfl).2.2.1
     (by decide)⟩

/-! ### C9: the OMDB enrichment never affects any output -/

theorem omdb_enrich_erase (sd : SDModel) (f : Except String OmdbPayload) :
    { omdb_enrich_node sd f with omdb := none } = { sd with omdb := none } := by
  unfold omdb_enrich_node
  cases mainImdbId sd with
  | none => rfl
  | some i => cases f <;> rfl

theorem write_output_omdb_enrich (cand : Candidate) (sd : SDModel)
    (f : Except String OmdbPayload) :
    write_output_node cand (omdb_enrich_node sd f) = write_output_node cand sd := by
  unfold omdb_enrich_node
  cases mainImdbId sd with
  | none => rfl
  | some i => cases f <;> rfl

/-- Forget the only key `omdb_enrich_node` can write. -/
def eraseOmdb (st : FinalState) : FinalState :=
  { st with source_data := { st.source_data with omdb := none } }

/-- C9 (claim theorem): two pipeline runs that differ only in the outcome of
the secondary-catalog (OMDB) fetch — success with any payload, failure, or
skip — produce identical final states apart from `source_data["omdb"]`
itself; in particular the normalized canonical record, the rendered NFO and
the output report are identical.  This is because `normalize_node` reads
`source_data["omdb"]` before `omdb_enrich_node` (which runs after
`translate`, hence after `normalize`) can have written it, and nothing
downstream reads that key. -/
theorem C9_omdb_enrich_inert (inp : PipeInput) (env : PipeEnv)
    (o1 o2 : Except String OmdbPayload) :
    (runPipeline inp env o1).map eraseOmdb =
      (runPipeline inp env o2).map eraseOmdb
    ∧ (runPipeline inp env o1).map (fun st => (st.normalized, st.nfo, st.output)) =
      (runPipeline inp env o2).map (fun st => (st.normalized, st.nfo, st.output)) := by
  unfold runPipeline
  dsimp only
  cases select_candidate inp env (search_node inp env) with
  | error e => exact ⟨rfl, rfl⟩
  | ok cand =>
    dsimp only
    cases fetch_node inp env cand with
    | error e => exact ⟨rfl, rfl⟩
    | ok sd0 =>
      dsimp only
      cases normalize_node inp cand sd0 env with
      | error e => exact ⟨rfl, rfl⟩
      | ok nrm =>
        dsimp only
        cases validate_nfo (llm_map_to_nfo nrm) with
        | error e => exact ⟨rfl, rfl⟩
        | ok nfo1 =>
          dsimp only
          constructor
          · simp only [Except.map, eraseOmdb, omdb_enrich_erase,
              write_output_omdb_enrich]
          · simp only [Except.map, write_output_omdb_enrich]

/-! ### C10: a missing release date always aborts at validation -/

theorem normalize_tv_no_date {d : TVPayload} (h : d.first_air_date = none) :
    ∃ r, normalize_tmdb_tv d = .ok r ∧ r.year = 0 ∧ r.media_type = "tv" := by
  unfold normalize_tmdb_tv yearFromDate
  rw [h]
  exact ⟨_, rfl, rfl, rfl⟩

theorem enrich_with_credits_year (r : NRecord) (c : CreditsData) :
    (enrich_with_credits r c).year = r.year := rfl

theorem enrich_with_credits_media_type (r : NRecord) (c : CreditsData) :
    (enrich_with_credits r c).media_type = r.media_type := rfl

theorem enrich_with_keywords_year (r : NRecord) (k : KeywordsData) (t : Bool) :
    (enrich_with_keywords r k t).year = r.year := by
  unfold enrich_with_keywords
  dsimp only
  split <;> split <;> (try split) <;> rfl

theorem enrich_with_keywords_media_type (r : NRecord) (k : KeywordsData)
    (t : Bool) : (enrich_with_keywords r k t).media_type = r.media_type := by
  unfold enrich_with_keywords
  dsimp only
  split <;> split <;> (try split) <;> rfl

theorem translate_tags_stage_year (r : NRecord) (e : Bool)
    (f : List String → List String) : (translate_tags_stage r e f).year = r.year := by
  unfold translate_tags_stage
  split <;> rfl

theorem translate_tags_stage_media_type (r : NRecord) (e : Bool)
    (f : List String → List String) :
    (translate_tags_stage r e f).media_type = r.media_type := by
  unfold translate_tags_stage
  split <;> rfl

/-- The identifying fields `year` and `media_type` agree. -/
def BaseShape (a b : NRecord) : Prop :=
  a.year = b.year ∧ a.media_type = b.media_type

theorem omdbSetId_base (r : NRecord) (o : OmdbPayload) :
    BaseShape (omdbSetId r o) r := by
  unfold BaseShape omdbSetId
  split <;> exact ⟨rfl, rfl⟩

theorem omdbSetActors_base (r : NRecord) (o : OmdbPayload) :
    BaseShape (omdbSetActors r o) r := by
  unfold BaseShape omdbSetActors
  split <;> (try split) <;> exact ⟨rfl, rfl⟩

theorem omdbSetPlot_base (r : NRecord) (o : OmdbPayload) :
    BaseShape (omdbSetPlot r o) r := by
  unfold BaseShape omdbSetPlot
  split <;> exact ⟨rfl, rfl⟩

theorem omdbSetGenre_base (r : NRecord) (o : OmdbPayload) :
    BaseShape (omdbSetGenre r o) r := by
  unfold BaseShape omdbSetGenre
  split <;> exact ⟨rfl, rfl⟩

theorem omdbSetDirectors_base (r : NRecord) (o : OmdbPayload) :
    BaseShape (omdbSetDirectors r o) r := by
  unfold BaseShape omdbSetDirectors
  split <;> exact ⟨rfl, rfl⟩

theorem omdbSetWriters_base (r : NRecord) (o : OmdbPayload) :
    BaseShape (omdbSetWriters r o) r := by
  unfold BaseShape omdbSetWriters
  split <;> exact ⟨rfl, rfl⟩

theorem enrich_with_omdb_base (r : NRecord) (o : OmdbPayload) :
    BaseShape (enrich_with_omdb r o) r := by
  unfold enrich_with_omdb
  have h1 := omdbSetId_base r o
  have h2 := omdbSetActors_base (omdbSetId r o) o
  have h3 := omdbSetPlot_base (omdbSetActors (omdbSetId r o) o) o
  have h4 := omdbSetGenre_base (omdbSetPlot (omdbSetActors (omdbSetId r o) o) o) o
  have h5 := omdbSetDirectors_base
    (omdbSetGenre (omdbSetPlot (omdbSetActors (omdbSetId r o) o) o) o) o
  have h6 := omdbSetWriters_base
    (omdbSetDirectors
      (omdbSetGenre (omdbSetPlot (omdbSetActors (omdbSetId r o) o) o) o) o) o
  exact ⟨h6.1.trans (h5.1.trans (h4.1.trans (h3.1.trans (h2.1.trans h1.1)))),
    h6.2.trans (h5.2.trans (h4.2.trans (h3.2.trans (h2.2.trans h1.2))))⟩

theorem enrich_with_omdb_year (r : NRecord) (o : OmdbPayload) :
    (enrich_with_omdb r o).year = r.year := (enrich_with_omdb_base r o).1

theorem enrich_with_omdb_media_type (r : NRecord) (o : OmdbPayload) :
    (enrich_with_omdb r o).media_type = r.media_type :=
  (enrich_with_omdb_base r o).2

def stageOf : Except (String × String) FinalState → Option String
  | .error (s, _) => some s
  | .ok _ => none

/-- C10 (claim theorem): for every run whose selected candidate is a TV
show and whose fetched primary-catalog record has no release date, the
normalized year is 0, the mapper copies year 0 into the descriptor, and the
run always aborts at the validation stage (`year` — or `title` — is falsy),
so it can never reach the completed state. -/
theorem C10_missing_date_aborts_at_validate (inp : PipeInput) (env : PipeEnv)
    (o : Except String OmdbPayload) (cand : Candidate) (sd0 : SDModel)
    (nrm : NRecord)
    (hsel : select_candidate inp env (search_node inp env) = .ok cand)
    (hfetch : fetch_node inp env cand = .ok sd0)
    (hmt : cand.media_type = "tv")
    (hdate : (mainTV sd0).first_air_date = none)
    (hnorm : normalize_node inp cand sd0 env = .ok nrm) :
    nrm.year = 0 ∧ (llm_map_to_nfo nrm).year = 0
    ∧ stageOf (runPipeline inp env o) = some "validate_nfo" := by
  obtain ⟨r0, hr0, hy0, hm0⟩ := normalize_tv_no_date hdate
  have hnormrun := hnorm
  unfold normalize_node at hnorm
  rw [hmt] at hnorm
  dsimp only at hnorm
  rw [if_neg (by decide : ¬("tv" : String) = "movie"), hr0] at hnorm
  dsimp only at hnorm
  injection hnorm with hnrm
  have hyear : nrm.year = 0 := by
    rw [← hnrm, translate_tags_stage_year]
    cases sd0.omdb with
    | none =>
      dsimp only
      rw [enrich_with_keywords_year, enrich_with_credits_year]
      split
      · exact hy0
      · exact hy0
    | some od =>
      dsimp only
      rw [enrich_with_omdb_year, enrich_with_keywords_year,
        enrich_with_credits_year]
      split
      · exact hy0
      · exact hy0
  have hmedia : nrm.media_type = "tv" := by
    rw [← hnrm, translate_tags_stage_media_type]
    cases sd0.omdb with
    | none =>
      dsimp only
      rw [enrich_with_keywords_media_type, enrich_with_credits_media_type]
      split
      · exact hm0
      · exact hm0
    | some od =>
      dsimp only
      rw [enrich_with_omdb_media_type, enrich_with_keywords_media_type,
        enrich_with_credits_media_type]
      split
      · exact hm0
      · exact hm0
  have hnfoyear : (llm_map_to_nfo nrm).year = 0 := by
    unfold llm_map_to_nfo
    rw [hmedia, if_neg (by decide : ¬("tv" : String) = "movie")]
    show nrm.year = 0
    exact hyear
  refine ⟨hyear, hnfoyear, ?_⟩
  unfold runPipeline
  dsimp only
  rw [hsel]
  dsimp only
  rw [hfetch]
  dsimp only
  rw [hnormrun]
  dsimp only
  unfold validate_nfo
  by_cases ht : (llm_map_to_nfo nrm).title = ""
  · rw [if_pos ht]
    rfl
  · rw [if_neg ht, if_pos hnfoyear]
    rfl

def egC10Inp : PipeInput :=
  { media_type := some "tv", media_type_forced := false, query := "",
    tmdb_id := some 5, omdb_id := none, translate := false,
    translate_tags := false, language := none, aid_search := false }

/-- A TV payload with a name but no first-air date. -/
def egC10Payload : TVPayload :=
  { emptyTVPayload with name := some "Show" }

def egC10Env : PipeEnv :=
  { egEnvTv with tvDetails := fun _ => .ok egC10Payload }

def egC10Sd : SDModel :=
  { main := some (.tv egC10Payload), credits := some ⟨[], []⟩,
    keywords := some ⟨[], []⟩, seasons := none, episodes := none,
    translated := none, translated_episodes := none, omdb := none }

def egC10Nrm : NRecord :=
  (normalize_node egC10Inp ⟨5, "tv"⟩ egC10Sd egC10Env).toOption.getD default

/-- Witness for C10 at a concrete dateless show. -/
theorem C10_missing_date_aborts_at_validate_witness :
    stageOf (runPipeline egC10Inp egC10Env (.error "skipped")) =
      some "validate_nfo" :=
  (C10_missing_date_aborts_at_validate egC10Inp egC10Env (.error "skipped")
    ⟨5, "tv"⟩ egC10Sd egC10Nrm rfl rfl rfl rfl rfl).2.2

end MetaDataScraper
